import Mathlib

/-!
Verification development for the QACR repository: a browser test-execution
agent (per-step tick loop driven by an LLM) plus a recording-to-replay-script
generator built on a selector-scoring engine.

The development shallowly embeds, from the TypeScript source:

* `src/recorder/selectors.ts` — selector scoring and locator code generation;
* `src/agent/expectations.ts` — expectation evaluation;
* `src/agent/runner.ts`       — the `AgentRunner.executeStep` control loop;
* `src/recorder/generate.ts`  — per-recording code generation and batch outcome;
* `src/recorder/review.ts`    — override validation for the reviewer pipeline.

JavaScript regular expressions are hand-translated into executable functions on
`List Char`; a comment next to each such definition records the regex being
modelled and the backtracking analysis that justifies the deterministic form.
JavaScript numbers used as scores are modelled as `Int` (penalties can drive
the raw score negative before the final floor at 0); array indices and counts
are `Nat`.  Effectful page/LLM operations are modelled as oracle functions
carried in an environment record; an operation that can throw returns
`Except String`.
-/

namespace QACR

/-! ## Character classes (ASCII ranges of the JS regexes) -/

/-- Whitespace as matched by the JS `\s` class (ASCII part) and trimmed by
`String.prototype.trim`. -/
def isWsChar (c : Char) : Bool :=
  c = ' ' || c = '\t' || c = '\n' || c = '\r' || c = '\x0b' || c = '\x0c'

def isLowerAlpha (c : Char) : Bool := 'a' ≤ c && c ≤ 'z'

def isUpperAlpha (c : Char) : Bool := 'A' ≤ c && c ≤ 'Z'

def isDigitChar (c : Char) : Bool := '0' ≤ c && c ≤ '9'

/-- The `[a-zA-Z0-9]` class. -/
def isAlnumChar (c : Char) : Bool := isLowerAlpha c || isUpperAlpha c || isDigitChar c

/-- The JS `\w` class: `[A-Za-z0-9_]`. -/
def isWordChar (c : Char) : Bool := isAlnumChar c || c = '_'

/-- The `[a-f0-9]` class (lower-case hex digit). -/
def isHexLowerChar (c : Char) : Bool := ('a' ≤ c && c ≤ 'f') || isDigitChar c

/-- The `[a-z0-9]` class. -/
def isLowerDigitChar (c : Char) : Bool := isLowerAlpha c || isDigitChar c

/-! ## List-of-characters helpers -/

/-- Does `p` occur as a prefix of `s`?  (Plain executable definition used by the
substring scan below.) -/
def isPrefixL : List Char → List Char → Bool
  | [], _ => true
  | _ :: _, [] => false
  | a :: p, b :: s => a = b && isPrefixL p s

/-- Does the pattern `p` occur as a contiguous substring of `s`?  Models a JS
`RegExp.test` call whose pattern is a plain literal string. -/
def hasSubstr (p : List Char) : List Char → Bool
  | [] => isPrefixL p []
  | s@(_ :: t) => isPrefixL p s || hasSubstr p t

/-- JS `String.prototype.trim` (both ends, `\s` whitespace). -/
def trimChars (l : List Char) : List Char :=
  ((l.dropWhile isWsChar).reverse.dropWhile isWsChar).reverse

/-- JS `String.prototype.trim` on `String`. -/
def jsTrim (s : String) : String := ⟨trimChars s.toList⟩

/-- JS `String.prototype.includes` (substring containment). -/
def jsIncludes (s pat : String) : Bool := hasSubstr pat.toList s.toList

/-! ## String escaping (selectors.ts `escapeString`)

`escapeString` in the source is
`s.replace(/\\/g, '\\\\').replace(/'/g, "\\'")`: first double every
backslash, then escape every single quote.  The two global replaces are
modelled as two sequential passes, exactly as composed in the source. -/

def escBackslashPass : List Char → List Char
  | [] => []
  | c :: rest =>
    if c = '\\' then '\\' :: '\\' :: escBackslashPass rest
    else c :: escBackslashPass rest

def escQuotePass : List Char → List Char
  | [] => []
  | c :: rest =>
    if c = '\x27' then '\\' :: '\x27' :: escQuotePass rest
    else c :: escQuotePass rest

def escapeString (s : String) : String :=
  ⟨escQuotePass (escBackslashPass s.toList)⟩

/-- generate.ts escapes only single quotes in several templates
(`.replace(/'/g, "\\'")`). -/
def escapeQuotesOnly (s : String) : String := ⟨escQuotePass s.toList⟩

/-! ## Scored selectors (selectors.ts) -/

/-- Mirror of the `ScoredSelector` interface. -/
structure ScoredSelector where
  code : String
  score : Int
  raw : String
  brittle : Bool
  reason : String
deriving Repr, DecidableEq

/-! ### ARIA selectors

`parseAriaSelector` matches `/^aria\/(.+?)(?:\[role="([^"]+)"\])?$/`.
The lazy group `(.+?)` grows one (non-newline) character at a time; at each
length the optional group is tried first with the `[role="…"]` bracket
(which, if it matches, must end the string) and then empty (which requires
the end of the string immediately).  Inside the bracket, `[^"]+` cannot cross
the closing quote, so the decomposition is unique. -/

/-- Match the remainder of the string against `\[role="([^"]+)"\]$`:
the whole of `rest` must be `[role="` ++ r ++ `"]` with `r` nonempty and
free of `"`.  Returns the captured role. -/
def roleSuffix? (rest : List Char) : Option (List Char) :=
  if isPrefixL "[role=\"".toList rest then
    let t := rest.drop 7
    let r := t.takeWhile (fun c => c ≠ '"')
    let u := t.dropWhile (fun c => c ≠ '"')
    if r ≠ [] && u = ['"', ']'] then some r else none
  else none

/-- Lazy scan for `(.+?)(?:\[role="([^"]+)"\])?$` over the text after the
`aria/` prefix: `acc` is the (reversed-order-free) name matched so far.
Returns the captured name and optional role. -/
def ariaScan (acc : List Char) : List Char → Option (List Char × Option (List Char))
  | [] => none
  | c :: rest =>
    if c = '\n' then none
    else
      let name := acc ++ [c]
      match rest with
      | [] => some (name, none)
      | _ :: _ =>
        match roleSuffix? rest with
        | some r => some (name, some r)
        | none => ariaScan name rest

/-- Full match of `/^aria\/(.+?)(?:\[role="([^"]+)"\])?$/` against the
character list `l`. -/
def ariaParse (l : List Char) : Option (List Char × Option (List Char)) :=
  if isPrefixL "aria/".toList l then ariaScan [] (l.drop 5) else none

/-- Mirror of `parseAriaSelector` (on the character list of its argument). -/
def parseAriaSelector (l : List Char) : Option ScoredSelector :=
  match ariaParse l with
  | none => none
  | some (name, roleOpt) =>
    let cleanName : String := ⟨trimChars name⟩
    match roleOpt with
    | some role =>
      let er := escapeString ⟨role⟩
      let en := escapeString cleanName
      some { code := "page.getByRole(\x27" ++ er ++ "\x27, \x7b name: \x27" ++ en ++ "\x27 \x7d)"
           , score := 100, raw := ⟨l⟩, brittle := false, reason := "ARIA role+name" }
    | none =>
      let en := escapeString cleanName
      some { code := "page.getByLabel(\x27" ++ en ++ "\x27)"
           , score := 90, raw := ⟨l⟩, brittle := false, reason := "ARIA label" }

/-! ### Text and XPath selectors

`parseTextSelector` matches `/^text\/(.+)$/` and `parseXpathSelector`
matches `/^xpath\/(.+)$/`.  `.` does not match a newline and (without the
`m` flag) `$` only matches at the very end of the string, so the regex
matches exactly when the part after the prefix is nonempty and
newline-free, and captures all of it. -/

def restCapture (pre : List Char) (l : List Char) : Option (List Char) :=
  if isPrefixL pre l then
    let rest := l.drop pre.length
    if rest ≠ [] && rest.all (fun c => c ≠ '\n') then some rest else none
  else none

/-- Mirror of `parseTextSelector` (the capture is `.trim()`-med). -/
def parseTextSelector (l : List Char) : Option ScoredSelector :=
  match restCapture "text/".toList l with
  | none => none
  | some rest =>
    let et := escapeString ⟨trimChars rest⟩
    some { code := "page.getByText(\x27" ++ et ++ "\x27, \x7b exact: true \x7d)"
         , score := 80, raw := ⟨l⟩, brittle := false, reason := "text content" }

/-- Mirror of `parseXpathSelector` (the capture is used untrimmed). -/
def parseXpathSelector (l : List Char) : Option ScoredSelector :=
  match restCapture "xpath/".toList l with
  | none => none
  | some rest =>
    let ex := escapeString ⟨rest⟩
    some { code := "page.locator(\x27xpath=" ++ ex ++ "\x27)"
         , score := 20, raw := ⟨l⟩, brittle := true, reason := "XPath (brittle)" }

/-! ### CSS scoring -/

/-- Match `/^#([\w-]+)$/`: a bare `#id`.  Returns the id. -/
def idCapture? (css : List Char) : Option (List Char) :=
  match css with
  | '#' :: t => if t ≠ [] && t.all (fun c => isWordChar c || c = '-') then some t else none
  | _ => none

/-- Strip the first of the given attribute spellings followed by `=` from `t`.
Models the ordered alternation `(?:testid|test-id|test|cy)=`; no two
alternatives (each extended with the mandatory `=`) can prefix the same
string, so first-match is deterministic. -/
def stripAttrName : List (List Char) → List Char → Option (List Char)
  | [], _ => none
  | n :: ns, t => if isPrefixL n t then some (t.drop n.length) else stripAttrName ns t

/-- Match `/^\[data-(?:…)=["']?([^"'\]]+)["']?\]$/` with the given attribute
name spellings (each already including the trailing `=`).  Backtracking
analysis: the value class `[^"'\]]` excludes both quote characters, so a
leading quote can only be consumed by the first `["']?`; the value run is
the maximal run of non-quote non-`]` characters; after it the optional
closing quote and the final `]` are forced. -/
def dataAttrCapture? (names : List (List Char)) (css : List Char) : Option (List Char) :=
  if isPrefixL "[data-".toList css then
    match stripAttrName names (css.drop 6) with
    | none => none
    | some u =>
      let u' := match u with
        | c :: rest => if c = '"' || c = '\x27' then rest else u
        | [] => u
      let v := u'.takeWhile (fun c => c ≠ '"' && c ≠ '\x27' && c ≠ ']')
      let w := u'.dropWhile (fun c => c ≠ '"' && c ≠ '\x27' && c ≠ ']')
      if v = [] then none
      else
        match w with
        | [']'] => some v
        | c :: [']'] => if c = '"' || c = '\x27' then some v else none
        | _ => none
  else none

/-- The four attribute spellings of the source regex
`\[data-(?:testid|test-id|test|cy)=…\]`, in source order. -/
def dataAttrNames : List (List Char) :=
  ["testid=".toList, "test-id=".toList, "test=".toList, "cy=".toList]

/-- Presence test for `/nth-(?:child|of-type)/`: the string contains the
substring `nth-child` or the substring `nth-of-type`. -/
def hasNth (css : List Char) : Bool :=
  hasSubstr "nth-child".toList css || hasSubstr "nth-of-type".toList css

/-- Does `c` belong to the explicit (non-whitespace) part of the class
`[>\s+~]`? -/
def isCombCore (c : Char) : Bool := c = '>' || c = '+' || c = '~'

/-- Number of matches of `/\s*[>\s+~]\s*/g`.

Backtracking analysis of the regex: scanning left to right over maximal
blocks of characters drawn from whitespace ∪ `{>,+,~}`, a block containing
k ≥ 1 of the characters `>`, `+`, `~` produces exactly k matches (each
match is one such character together with the whitespace around it), and a
block of pure whitespace produces exactly one match (the greedy `\s*`
backtracks one character so that the class consumes the last whitespace
character of the run).  State `st`: 0 = outside a block, 1 = inside a block
that already contains a core character, 2 = inside a pure-whitespace block
so far. -/
def combCount (st : Nat) : List Char → Nat
  | [] => if st = 2 then 1 else 0
  | c :: rest =>
    if isCombCore c then 1 + combCount 1 rest
    else if isWsChar c then
      (if st = 0 then combCount 2 rest else combCount st rest)
    else (if st = 2 then 1 else 0) + combCount 0 rest

/-- `(css.match(/\s*[>\s+~]\s*/g) ?? []).length`. -/
def combinatorCount (css : List Char) : Nat := combCount 0 css

/-- `(css.match(/\./g) ?? []).length`: the number of `.` characters. -/
def classCount (css : List Char) : Nat := css.count '.'

/-! ### The generated-token heuristic

`GENERATED_TOKEN_RE` is an alternation of six shapes; `.test` asks whether
any of them matches somewhere in the string.  For each shape we give a
per-position matcher and scan every position.  For existence, a counted
repetition `{n,}` is equivalent to exactly `n` further matching characters,
and `[a-z]{1,3}` is tried with every k ∈ {1,2,3}. -/

/-- Helper: after the `[a-z]{1,3}` part, match `[A-Z][a-zA-Z0-9]{6,}`. -/
def upperThenAlnum6 : List Char → Bool
  | u :: rest => isUpperAlpha u && (rest.take 6).length = 6 && (rest.take 6).all isAlnumChar
  | [] => false

/-- `[a-z]{1,3}[A-Z][a-zA-Z0-9]{6,}` anchored at the head. -/
def genCamelAt : List Char → Bool
  | a :: rest =>
    isLowerAlpha a &&
      (upperThenAlnum6 rest ||
        (match rest with
         | b :: rest2 =>
           isLowerAlpha b &&
             (upperThenAlnum6 rest2 ||
               (match rest2 with
                | c :: rest3 => isLowerAlpha c && upperThenAlnum6 rest3
                | [] => false))
         | [] => false))
  | [] => false

/-- `[a-f0-9]{8,}` anchored at the head. -/
def genHexAt (l : List Char) : Bool :=
  (l.take 8).length = 8 && (l.take 8).all isHexLowerChar

/-- `_[a-zA-Z0-9]{5,}_` anchored at the head: the `{5,}` run is a maximal
alnum run (alnum excludes `_`), so the closing `_` must be the first
character after it. -/
def genUnderscoreAt : List Char → Bool
  | '_' :: rest =>
    let run := rest.takeWhile isAlnumChar
    5 ≤ run.length && (rest.drop run.length).head? = some '_'
  | _ => false

/-- `css-[a-z0-9]{5,}` anchored at the head. -/
def genCssAt (l : List Char) : Bool :=
  isPrefixL "css-".toList l && (let t := (l.drop 4).take 5; t.length = 5 && t.all isLowerDigitChar)

/-- `sc-[a-zA-Z]{4,}` anchored at the head. -/
def genScAt (l : List Char) : Bool :=
  isPrefixL "sc-".toList l &&
    (let t := (l.drop 3).take 4
     t.length = 4 && t.all (fun c => isLowerAlpha c || isUpperAlpha c))

/-- `styled-[a-z]` anchored at the head. -/
def genStyledAt (l : List Char) : Bool :=
  isPrefixL "styled-".toList l &&
    (match (l.drop 7).head? with
     | some c => isLowerAlpha c
     | none => false)

/-- Any of the six alternatives anchored at the head. -/
def genTokenAt (l : List Char) : Bool :=
  genCamelAt l || genHexAt l || genUnderscoreAt l || genCssAt l || genScAt l || genStyledAt l

/-- Scan every position of the string for a match of `GENERATED_TOKEN_RE`. -/
def genTokenScan : List Char → Bool
  | [] => genTokenAt []
  | l@(_ :: t) => genTokenAt l || genTokenScan t

/-- Mirror of `looksGenerated` (a `GENERATED_TOKEN_RE.test` call). -/
def looksGenerated (token : List Char) : Bool := genTokenScan token

/-! ### `scoreCssSelector` -/

/-- The `css/` prefix strip at the top of `scoreCssSelector`. -/
def stripCssPre (l : List Char) : List Char :=
  if isPrefixL "css/".toList l then l.drop 4 else l

/-- Mirror of `scoreCssSelector`: baseline 60; bare `#id` → fixed 70;
`data-testid`-style attribute selector → fixed 85; otherwise cumulative
penalties (−25 `nth-child`/`nth-of-type`, −10 per combinator beyond 3,
−5 per class beyond 3, −20 generated-looking token), floored at 0. -/
def scoreCssSelector (l : List Char) : ScoredSelector :=
  let cs := stripCssPre l
  match idCapture? cs with
  | some id =>
    let ei := escapeString ⟨id⟩
    { code := "page.locator(\x27#" ++ ei ++ "\x27)"
    , score := 70, raw := ⟨l⟩, brittle := false, reason := "stable #id" }
  | none =>
    match dataAttrCapture? dataAttrNames cs with
    | some v =>
      let ev := escapeString ⟨v⟩
      { code := "page.getByTestId(\x27" ++ ev ++ "\x27)"
      , score := 85, raw := ⟨l⟩, brittle := false, reason := "data-testid" }
    | none =>
      let score0 : Int := 60
      let (score1, brittle1, reasons1) :=
        if hasNth cs then (score0 - 25, true, ["nth-child/nth-of-type"])
        else (score0, false, ([] : List String))
      let comb := combinatorCount cs
      let (score2, brittle2, reasons2) :=
        if 3 < comb then
          (score1 - 10 * ((comb : Int) - 3), true,
            reasons1 ++ [s!"long chain ({comb} combinators)"])
        else (score1, brittle1, reasons1)
      let ccount := classCount cs
      let (score3, brittle3, reasons3) :=
        if 3 < ccount then
          (score2 - 5 * ((ccount : Int) - 3), true,
            reasons2 ++ [s!"many classes ({ccount})"])
        else (score2, brittle2, reasons2)
      let (score4, brittle4, reasons4) :=
        if looksGenerated cs then (score3 - 20, true, reasons3 ++ ["generated-looking token"])
        else (score3, brittle3, reasons3)
      let finalScore := max 0 score4
      let ec := escapeString ⟨cs⟩
      let reason :=
        if reasons4.isEmpty then "CSS selector"
        else "CSS (" ++ String.intercalate ", " reasons4 ++ ")"
      { code := "page.locator(\x27" ++ ec ++ "\x27)"
      , score := finalScore, raw := ⟨l⟩, brittle := brittle4, reason := reason }

/-- Mirror of `parseSelector` on the character list of the raw selector:
trim, then try ARIA, text, XPath, pierce (shadow DOM, treated as CSS),
finally plain CSS. -/
def parseSelectorL (l : List Char) : ScoredSelector :=
  let trimmed := trimChars l
  match (if isPrefixL "aria/".toList trimmed then parseAriaSelector trimmed else none) with
  | some result => result
  | none =>
    match (if isPrefixL "text/".toList trimmed then parseTextSelector trimmed else none) with
    | some result => result
    | none =>
      match (if isPrefixL "xpath/".toList trimmed then parseXpathSelector trimmed else none) with
      | some result => result
      | none =>
        if isPrefixL "pierce/".toList trimmed then scoreCssSelector (trimmed.drop 7)
        else scoreCssSelector trimmed

/-- Mirror of `parseSelector` (string boundary). -/
def parseSelector (raw : String) : ScoredSelector := parseSelectorL raw.toList

/-! ### `selectBestSelector` -/

/-- The fallback returned when no candidate selectors are available. -/
def bodyFallback : ScoredSelector :=
  { code := "page.locator(\x27body\x27)", score := 0, raw := "body"
  , brittle := true, reason := "no selectors provided" }

/-- The candidate list: one parsed selector per alternative with a nonempty
inner array, using only the first (top-level frame) entry. -/
def candidatesOf (selectors : List (List String)) : List ScoredSelector :=
  selectors.filterMap fun alt =>
    match alt with
    | [] => none
    | primary :: _ => some (parseSelector primary)

/-- Stable insertion into a list sorted by descending score: the inserted
element goes before every strictly lower-scored element and after every
element with a greater-or-equal score that was already in place.  Together
with `sortByScoreDesc` this models the ECMAScript stable
`candidates.sort((a, b) => b.score - a.score)`. -/
def insertDesc (x : ScoredSelector) : List ScoredSelector → List ScoredSelector
  | [] => [x]
  | y :: rest => if x.score < y.score then y :: insertDesc x rest
                 else x :: y :: rest

/-- Stable sort by descending score (insertion sort; stability means an
earlier-listed candidate stays before a later-listed candidate of equal
score). -/
def sortByScoreDesc : List ScoredSelector → List ScoredSelector
  | [] => []
  | x :: rest => insertDesc x (sortByScoreDesc rest)

/-- Mirror of `selectBestSelector`. -/
def selectBestSelector (selectors : List (List String)) : ScoredSelector :=
  let candidates := candidatesOf selectors
  if candidates.isEmpty then bodyFallback
  else (sortByScoreDesc candidates).headD bodyFallback

/-! ## Specification-side definitions for the Selector Scorer

The following definitions are written from the specification's words (spec
§4.2 and the claims), to be compared with the source embedding above.
`specSelectorScoreWith` is parameterised by the list of `data-*` attribute
spellings that receive the fixed 85 bonus, because the claim under test
enumerates `data-testid`/`data-test`/`data-cy` while the source also accepts
`data-test-id`. -/

/-- Score of a CSS-classified selector per the spec's words: baseline 60,
replaced by 70 for a bare `#id` and 85 for a recognised `data-*` attribute
selector; otherwise cumulative penalties, floored at 0. -/
def specCssScore (names : List (List Char)) (css : List Char) : Int :=
  if (idCapture? css).isSome then 70
  else if (dataAttrCapture? names css).isSome then 85
  else
    let pNth : Int := if hasNth css then 25 else 0
    let comb := combinatorCount css
    let pComb : Int := if 3 < comb then 10 * ((comb : Int) - 3) else 0
    let ccount := classCount css
    let pClass : Int := if 3 < ccount then 5 * ((ccount : Int) - 3) else 0
    let pGen : Int := if looksGenerated css then 20 else 0
    max 0 (60 - pNth - pComb - pClass - pGen)

/-- Score assignment per the spec's words: classify the (trimmed) raw string
by prefix/shape into ARIA role+name (100), ARIA label-only (90), text (80),
xpath (20), or CSS (shadow-piercing selectors treated as CSS after dropping
their prefix); score CSS selectors with `specCssScore`. -/
def specSelectorScoreWith (names : List (List Char)) (l : List Char) : Int :=
  let trimmed := trimChars l
  match ariaParse trimmed with
  | some (_, some _) => 100
  | some (_, none) => 90
  | none =>
    if (restCapture "text/".toList trimmed).isSome then 80
    else if (restCapture "xpath/".toList trimmed).isSome then 20
    else
      let body := if isPrefixL "pierce/".toList trimmed then trimmed.drop 7 else trimmed
      specCssScore names (stripCssPre body)

/-- The attribute spellings the claim enumerates: `data-testid`, `data-test`,
`data-cy` (each with the mandatory `=`). -/
def claimedAttrNames : List (List Char) :=
  ["testid=".toList, "test=".toList, "cy=".toList]

/-- Claim-C3 score function exactly as the claim states it. -/
def specSelectorScoreClaimed (raw : String) : Int :=
  specSelectorScoreWith claimedAttrNames raw.toList

/-- Amended score function: identical except that the fixed 85 bonus also
covers the `data-test-id` spelling accepted by the source regex. -/
def specSelectorScoreAmended (raw : String) : Int :=
  specSelectorScoreWith dataAttrNames raw.toList

/-- Specification-side pick per spec §4.2's tie-break words: the
earliest-listed candidate of maximal score (`none` when there are no
candidates). -/
def specBestCandidate : List ScoredSelector → Option ScoredSelector
  | [] => none
  | c :: rest =>
    match specBestCandidate rest with
    | none => some c
    | some b => some (if c.score < b.score then b else c)

/-- Specification-side `selectBestSelector`: the earliest-listed candidate of
maximal score, or the body fallback when no candidate exists. -/
def specBestSelector (selectors : List (List String)) : ScoredSelector :=
  match specBestCandidate (candidatesOf selectors) with
  | none => bodyFallback
  | some c => c

/-! ## Expectation evaluation (src/agent/expectations.ts)

The live page is abstracted as a record of oracle functions: the current URL
(a pure read) and the two visibility checks, which take the polling timeout
and may throw (modelled as `Except.error` carrying the thrown message).
`LocatorSpec` mirrors the discriminated union of actionSchema.ts; the
optional `description` strings of the schema are not modelled (they are
never read by the runner). -/

/-- Mirror of the `LocatorSpec` discriminated union. -/
inductive LocatorSpec where
  | role (role : String) (name : String) (exact : Option Bool)
  | label (text : String) (exact : Option Bool)
  | testid (id : String)
  | text (text : String) (exact : Option Bool)
  | css (selector : String)
  | active
deriving Repr, DecidableEq

/-- Mirror of the `Expectation` interface.  The `type` field of the source is
a union of three string literals; it is modelled as `String` so that a value
outside the union (reachable in TypeScript through unsound casts) exercises
the `default` branch of the evaluator. -/
structure Expectation where
  type : String
  value : String
  locator : Option LocatorSpec := none
deriving Repr, DecidableEq

/-- Mirror of the `ExpectationResult` interface. -/
structure ExpectationResult where
  expectation : Expectation
  passed : Bool
  error : Option String := none
deriving Repr, DecidableEq

/-- Oracle view of a live page.  `textVisible v t` models
`page.getByText(v, { exact: false }).first().isVisible({ timeout: t })` and
`locVisible s t` models
`locatorFromSpec(page, s).first().isVisible({ timeout: t })`; both return
`Except.error m` when the underlying call throws with message `m`. -/
structure Page where
  url : String
  textVisible : String → Nat → Except String Bool
  locVisible : LocatorSpec → Nat → Except String Bool

/-- Mirror of `evaluateExpectation` (default timeout 3000): the `switch` on
the expectation type, with every thrown oracle error converted into a failed
result carrying the error message. -/
def evaluateExpectation (page : Page) (expectation : Expectation)
    (timeout : Nat := 3000) : ExpectationResult :=
  if expectation.type = "url_contains" then
    let passed := jsIncludes page.url expectation.value
    { expectation, passed
    , error := if passed then none
               else some ("URL \"" ++ page.url ++ "\" does not contain \""
                 ++ expectation.value ++ "\"") }
  else if expectation.type = "visible_text" then
    match page.textVisible expectation.value timeout with
    | .ok isVisible =>
      { expectation, passed := isVisible
      , error := if isVisible then none
                 else some ("Text \"" ++ expectation.value ++ "\" not visible") }
    | .error m =>
      { expectation, passed := false
      , error := some ("Text \"" ++ expectation.value ++ "\" not found: " ++ m) }
  else if expectation.type = "locator_visible" then
    match (match expectation.locator with
           | some spec => page.locVisible spec timeout
           | none => page.textVisible expectation.value timeout) with
    | .ok isVisible =>
      { expectation, passed := isVisible
      , error := if isVisible then none else some "Locator not visible" }
    | .error m =>
      { expectation, passed := false, error := some ("Locator check failed: " ++ m) }
  else
    { expectation, passed := false
    , error := some ("Unknown expectation type: " ++ expectation.type) }

/-- Mirror of the `{ allPassed, results }` return value of
`evaluateAllExpectations`. -/
structure AllExpectationsResult where
  allPassed : Bool
  results : List ExpectationResult
deriving Repr, DecidableEq

/-- Mirror of `evaluateAllExpectations`: evaluate every expectation in order
(no short-circuit), then report overall pass iff every individual result
passed.  The optional `timeout` argument defaults, inside
`evaluateExpectation`, to 3000 when absent. -/
def evaluateAllExpectations (page : Page) (expectations : List Expectation)
    (timeout : Option Nat := none) : AllExpectationsResult :=
  let results := expectations.map fun e => evaluateExpectation page e (timeout.getD 3000)
  { allPassed := results.all (·.passed), results }

/-! ## The agent runner (src/agent/runner.ts)

`AgentRunner.executeStep` drives a per-step tick loop.  The effectful
collaborators are abstracted as per-tick oracles in `AgentEnv`:

* `pageSnapshot t` — the url/title/ARIA-snapshot/short-text quadruple
  `collectObservation` reads from the page at tick `t` (the internal
  try/catch blocks of observation.ts make the collection total);
* `llm t` — the result of `this.llm.generateAction(...)` at tick `t`
  (`Except.error` models a thrown/rejected call);
* `parse r` — the result of `parseAction(r)` (`Except.error` models a parse
  or schema-validation throw); the first component is the optional
  `thinking` field, which is only logged;
* `exec t a` — the `{ success, error? }` outcome of
  `this.executeAction(a)` at tick `t` (the source catches every throw, so
  the outcome is total);
* `pageAt t` — the page state seen by the expectation evaluator after the
  tick-`t` action; `finalPage` — the page state seen by the post-loop
  evaluation.

Variable interpolation (`interpolateVariables`) only rewrites the goal text
fed to prompts and logs, and prompts are opaque to the claims under test;
the goal string is therefore carried verbatim.  A ghost counter of
`llm.generateAction` invocations is threaded through the loop state and
returned alongside the `StepResult`. -/

/-- Mirror of the `Action` discriminated union of actionSchema.ts (optional
`description` fields omitted; they are never read). -/
inductive Action where
  | click (locator : LocatorSpec)
  | fill (locator : LocatorSpec) (text : String)
  | press (key : String) (locator : Option LocatorSpec)
  | select (locator : LocatorSpec) (value : String)
  | check (locator : LocatorSpec) (checked : Bool)
  | wait (ms : Nat)
  | goto (url : String)
  | assert (assertType : String) (value : String) (locator : Option LocatorSpec)
  | fail (reason : String)
deriving Repr, DecidableEq

/-- One entry of the `actions` log (`{ action, success, error? }`). -/
structure ActionOutcome where
  action : Action
  success : Bool
  error : Option String := none
deriving Repr, DecidableEq

/-- Mirror of the `Observation` interface of observation.ts. -/
structure Observation where
  url : String
  title : String
  ariaSnapshot : String
  shortText : String
  lastError : Option String
  previousActions : List ActionOutcome
  tickNumber : Nat
deriving Repr, DecidableEq

/-- Mirror of the `TestStep` interface. -/
structure TestStep where
  goal : String
  expect : Option (List Expectation) := none
deriving Repr, DecidableEq

/-- Mirror of `RunnerConfig`. -/
structure RunnerConfig where
  maxTicksPerStep : Nat
  ariaSnapshotMaxChars : Nat
  shortTextMaxChars : Nat
  postActionDelayMs : Nat
  expectationTimeoutMs : Nat
deriving Repr, DecidableEq

/-- Mirror of `DEFAULT_CONFIG`. -/
def defaultRunnerConfig : RunnerConfig :=
  { maxTicksPerStep := 25, ariaSnapshotMaxChars := 8000, shortTextMaxChars := 2000
  , postActionDelayMs := 200, expectationTimeoutMs := 3000 }

/-- Mirror of `DebugInfo`. -/
structure DebugInfo where
  lastObservation : Observation
  lastLLMResponse : String
  lastError : Option String
deriving Repr, DecidableEq

/-- Mirror of `StepResult`. -/
structure StepResult where
  step : TestStep
  success : Bool
  ticksUsed : Nat
  actions : List ActionOutcome
  expectations : List ExpectationResult
  error : Option String := none
  debugInfo : Option DebugInfo := none
deriving Repr, DecidableEq

/-- Oracle environment for one `executeStep` run (see the section comment). -/
structure AgentEnv where
  pageSnapshot : Nat → String × String × String × String
  llm : Nat → Except String String
  parse : String → Except String (Option String × Action)
  exec : Nat → Action → Bool × Option String
  pageAt : Nat → Page
  finalPage : Page

/-- Mirror of `collectObservation`: snapshot the page state and attach the
last 5 prior actions, the last error and the tick number. -/
def collectObservation (env : AgentEnv) (tick : Nat) (lastError : Option String)
    (actions : List ActionOutcome) : Observation :=
  let (url, title, ariaSnapshot, shortText) := env.pageSnapshot tick
  { url, title, ariaSnapshot, shortText, lastError
  , previousActions := actions.drop (actions.length - 5), tickNumber := tick }

/-- Mutable loop state of `executeStep` (the local variables of the source),
plus the ghost `llmCalls` counter. -/
structure LoopState where
  actions : List ActionOutcome
  lastError : Option String
  lastObservation : Option Observation
  lastLLMResponse : String
  llmCalls : Nat
deriving Repr, DecidableEq

/-- Initial loop state. -/
def initialLoopState : LoopState :=
  { actions := [], lastError := none, lastObservation := none
  , lastLLMResponse := "", llmCalls := 0 }

/-- One-to-one translation of the `for (let tick = 1; tick <= max; tick++)`
loop body of `executeStep`, structurally recursive on the remaining tick
budget.  `Sum.inr` is an early `return` (with the ghost call count);
`Sum.inl` is falling out of the loop with the final local state. -/
def runTicks (env : AgentEnv) (cfg : RunnerConfig) (step : TestStep)
    (expectations : List Expectation) :
    Nat → Nat → LoopState → LoopState ⊕ (StepResult × Nat)
  | 0, _, st => .inl st
  | remaining + 1, tick, st =>
    let obs := collectObservation env tick st.lastError st.actions
    let st1 := { st with lastObservation := some obs }
    match env.llm tick with
    | .error e =>
      runTicks env cfg step expectations remaining (tick + 1)
        { st1 with lastError := some ("LLM error: " ++ e), llmCalls := st1.llmCalls + 1 }
    | .ok llmResponse =>
      let st2 := { st1 with lastLLMResponse := llmResponse, llmCalls := st1.llmCalls + 1 }
      match env.parse llmResponse with
      | .error e =>
        runTicks env cfg step expectations remaining (tick + 1)
          { st2 with lastError := some ("Parse error: " ++ e) }
      | .ok (_thinking, action) =>
        match action with
        | .fail reason =>
          .inr ({ step, success := false, ticksUsed := tick, actions := st2.actions
                , expectations := [], error := some ("Agent gave up: " ++ reason)
                , debugInfo := some { lastObservation := obs
                                    , lastLLMResponse := st2.lastLLMResponse
                                    , lastError := st2.lastError } }, st2.llmCalls)
        | .assert assertType value locator =>
          let assertExpectation : Expectation := { type := assertType, value, locator }
          let ar := evaluateAllExpectations (env.pageAt tick) [assertExpectation]
                      (some cfg.expectationTimeoutMs)
          let passed := ((ar.results.head?).map (·.passed)).getD false
          let aerr := (ar.results.head?).bind (·.error)
          let st3 := { st2 with
            actions := st2.actions ++ [{ action := action, success := passed
                                       , error := if passed then none else aerr }]
            , lastError := if passed then none else some (aerr.getD "Assert failed") }
          runTicks env cfg step expectations remaining (tick + 1) st3
        | _ =>
          let (execSuccess, execError) := env.exec tick action
          let st3 := { st2 with
            actions := st2.actions ++ [{ action := action, success := execSuccess
                                       , error := execError }]
            , lastError := execError }
          if expectations.isEmpty then
            runTicks env cfg step expectations remaining (tick + 1) st3
          else
            let ev := evaluateAllExpectations (env.pageAt tick) expectations
                        (some cfg.expectationTimeoutMs)
            if ev.allPassed then
              .inr ({ step, success := true, ticksUsed := tick, actions := st3.actions
                    , expectations := ev.results }, st3.llmCalls)
            else
              runTicks env cfg step expectations remaining (tick + 1) st3

/-- The whole tick loop of one `executeStep` call. -/
def runTicksOf (env : AgentEnv) (cfg : RunnerConfig) (step : TestStep) :
    LoopState ⊕ (StepResult × Nat) :=
  runTicks env cfg step (step.expect.getD []) cfg.maxTicksPerStep 1 initialLoopState

/-- Mirror of `executeStep`, paired with the ghost count of
`llm.generateAction` invocations.  The second branch is the post-loop
"max ticks exceeded" tail of the source. -/
def executeStepCore (env : AgentEnv) (cfg : RunnerConfig) (step : TestStep) :
    StepResult × Nat :=
  let expectations := step.expect.getD []
  match runTicksOf env cfg step with
  | .inr (result, calls) => (result, calls)
  | .inl st =>
    let ev := evaluateAllExpectations env.finalPage expectations
                (some cfg.expectationTimeoutMs)
    ({ step, success := expectations.isEmpty, ticksUsed := cfg.maxTicksPerStep
     , actions := st.actions, expectations := ev.results
     , error := if expectations.isEmpty then none
                else some ("Max ticks (" ++ toString cfg.maxTicksPerStep
                  ++ ") exceeded without meeting expectations")
     , debugInfo := st.lastObservation.map fun o =>
         { lastObservation := o, lastLLMResponse := st.lastLLMResponse
         , lastError := st.lastError } }, st.llmCalls)

/-- Mirror of `executeStep`. -/
def executeStep (env : AgentEnv) (cfg : RunnerConfig) (step : TestStep) : StepResult :=
  (executeStepCore env cfg step).1

/-! ## Recording generator and override sidecars
(src/recorder/generate.ts, src/recorder/schemas.ts, src/recorder/selectors.ts)

A recorded step is modelled with its `type` tag plus the optional
type-specific fields the generator reads (`RecordingSchema` validates steps
only as records, so every field access in the generator is optional).  File
discovery, JSON parsing and Zod validation are abstracted: the generator's
batch input is the ordered list of discovered files, each already classified
as invalid (with its rejection reason) or as a parsed recording together
with its sidecars. -/

/-- Mirror of the `LocatorOverride` schema.  `kind` is one of
`role`/`label`/`text`/`testid`/`css` after schema validation; it is carried
as `String` because `locatorOverrideToCode` in the source also has a
`default` branch for other values. -/
structure LocatorOverride where
  kind : String
  role : Option String := none
  name : Option String := none
  exact : Option Bool := none
  selector : Option String := none
  text : Option String := none
  id : Option String := none
deriving Repr, DecidableEq

/-- Mirror of the `OverrideEntry` schema (`step` is a JS number). -/
structure OverrideEntry where
  step : Int
  action : String
  locator : LocatorOverride
deriving Repr, DecidableEq

/-- Mirror of the `OverridesFile` schema. -/
structure OverridesFile where
  overrides : List OverrideEntry
deriving Repr, DecidableEq

/-- Mirror of the `AssertionExpect` schema (`type` is an enum of
`url_contains`/`visible_text`/`role_visible`; carried as `String` because
`generateAssertionCode` has a `default` branch). -/
structure AssertionExpect where
  type : String
  value : String
  role : Option String := none
  name : Option String := none
  exact : Option Bool := none
deriving Repr, DecidableEq

/-- Mirror of the `AssertionEntry` schema. -/
structure AssertionEntry where
  afterStep : Int
  expect : List AssertionExpect
deriving Repr, DecidableEq

/-- Mirror of the `AssertionsFile` schema. -/
structure AssertionsFile where
  assertions : List AssertionEntry
deriving Repr, DecidableEq

/-- Mirror of one recorded step as read by the generator: the `type` tag and
the optional fields the step templates access. -/
structure RecStep where
  type : String
  url : Option String := none
  selectors : Option (List (List String)) := none
  value : Option String := none
  key : Option String := none
  x : Option Int := none
  y : Option Int := none
  width : Option Int := none
  height : Option Int := none
  expression : Option String := none
  name : Option String := none
  button : Option String := none
deriving Repr, DecidableEq

/-- Mirror of the `Recording` schema (`title` plus an ordered step list). -/
structure Recording where
  title : String
  steps : List RecStep
deriving Repr, DecidableEq

/-- Mirror of `locatorOverrideToCode` (selectors.ts). -/
def locatorOverrideToCode (override : LocatorOverride) : String :=
  match override.kind with
  | "role" =>
    let opts :=
      (match override.name with
       | some n => let en := escapeString n; [s!"name: \x27{en}\x27"]
       | none => []) ++
      (match override.exact with
       | some b => [s!"exact: {b}"]
       | none => [])
    let optsStr := if opts.isEmpty then "" else ", \x7b " ++ String.intercalate ", " opts ++ " \x7d"
    let er := escapeString (override.role.getD "button")
    s!"page.getByRole(\x27{er}\x27{optsStr})"
  | "label" =>
    let et := escapeString ((override.text.orElse fun _ => override.name).getD "")
    s!"page.getByLabel(\x27{et}\x27)"
  | "text" =>
    let et := escapeString ((override.text.orElse fun _ => override.name).getD "")
    "page.getByText(\x27" ++ et ++ "\x27, \x7b exact: true \x7d)"
  | "testid" =>
    let ei := escapeString (override.id.getD "")
    s!"page.getByTestId(\x27{ei}\x27)"
  | "css" =>
    let es := escapeString (override.selector.getD "")
    s!"page.locator(\x27{es}\x27)"
  | _ =>
    let es := escapeString (override.selector.getD "body")
    s!"page.locator(\x27{es}\x27)"

/-- Mirror of `escapeRegex`: prefix a backslash to every regex
metacharacter (`.replace(/[.*+?^${}()|[\]\\]/g, '\\$&')`). -/
def escapeRegexPass : List Char → List Char
  | [] => []
  | c :: rest =>
    if c = '.' || c = '*' || c = '+' || c = '?' || c = '^' || c = '$' || c = '\x7b'
        || c = '\x7d' || c = '(' || c = ')' || c = '|' || c = '[' || c = ']' || c = '\\'
    then '\\' :: c :: escapeRegexPass rest
    else c :: escapeRegexPass rest

def escapeRegex (s : String) : String := ⟨escapeRegexPass s.toList⟩

/-- Mirror of `sanitizeFilename`: lower-case (ASCII), collapse every run of
characters outside `[a-z0-9]` to a single `-`, strip leading/trailing `-`,
keep the first 80 characters. -/
def dashifyAux (inRun : Bool) : List Char → List Char
  | [] => []
  | c :: rest =>
    if isLowerDigitChar c then c :: dashifyAux false rest
    else if inRun then dashifyAux true rest
    else '-' :: dashifyAux true rest

def sanitizeFilename (title : String) : String :=
  let lowered := title.toList.map Char.toLower
  let dashed := dashifyAux false lowered
  let stripped := ((dashed.dropWhile (· = '-')).reverse.dropWhile (· = '-')).reverse
  ⟨stripped.take 80⟩

/-- Split a character list at every newline (the `code.split('\n')` of the
source); always returns at least one (possibly empty) line. -/
def splitLines : List Char → List (List Char)
  | [] => [[]]
  | c :: rest =>
    match splitLines rest with
    | [] => []
    | line :: more => if c = '\n' then [] :: line :: more else (c :: line) :: more

/-- Mirror of `indent`: pad every line whose trimmed form is nonempty with
`'  '.repeat(level)`; blank lines become empty. -/
def indent (code : String) (level : Nat) : String :=
  let pad := String.join (List.replicate level "  ")
  String.intercalate "\n"
    ((splitLines code.toList).map fun line =>
      if trimChars line ≠ [] then pad ++ (⟨line⟩ : String) else "")

/-- Mirror of `getBestLocatorCode`. -/
def getBestLocatorCode (step : RecStep) : String :=
  match step.selectors with
  | none => "page.locator(\x27body\x27)"
  | some selectors =>
    if selectors.isEmpty then "page.locator(\x27body\x27)"
    else (selectBestSelector selectors).code

/-- Mirror of `getBestScoredSelector`. -/
def getBestScoredSelector (step : RecStep) : Option ScoredSelector :=
  match step.selectors with
  | none => none
  | some selectors =>
    if selectors.isEmpty then none else some (selectBestSelector selectors)

/-- Mirror of `generateAssertionCode`. -/
def generateAssertionCode (exp : AssertionExpect) : String :=
  match exp.type with
  | "url_contains" =>
    let ev := escapeRegex exp.value
    s!"await expect(page).toHaveURL(new RegExp(\x27{ev}\x27));"
  | "visible_text" =>
    let ev := escapeQuotesOnly exp.value
    "await expect(page.getByText(\x27" ++ ev ++
      "\x27, \x7b exact: false \x7d).first()).toBeVisible();"
  | "role_visible" =>
    let role := exp.role.getD "button"
    let opts :=
      (match exp.name with
       | some n => let en := escapeQuotesOnly n; [s!"name: \x27{en}\x27"]
       | none => []) ++
      (match exp.exact with
       | some b => [s!"exact: {b}"]
       | none => [])
    let optsStr := if opts.isEmpty then "" else ", \x7b " ++ String.intercalate ", " opts ++ " \x7d"
    s!"await expect(page.getByRole(\x27{role}\x27{optsStr})).toBeVisible();"
  | _ => s!"// Unknown assertion type: {exp.type}"

/-- The message of the uncaught `TypeError` Node raises when a template
reads `.replace` off a missing field (`(step.url as string).replace(...)`
with `step.url === undefined`, and likewise for `value` and
`expression`).  `RecordingSchema` validates steps only as
`z.record(z.any())`, so such steps are schema-valid and the throw escapes
`generate()` uncaught, aborting the whole batch. -/
def undefinedReplaceError : String :=
  "Cannot read properties of undefined (reading \x27replace\x27)"

/-- A JS template interpolation of a possibly-undefined string field:
`` `${x}` `` prints `undefined` when the field is absent. -/
def jsStrField : Option String → String
  | some s => s
  | none => "undefined"

/-- A JS template interpolation of a possibly-undefined numeric field. -/
def jsNumField : Option Int → String
  | some n => toString n
  | none => "undefined"

/-- Mirror of the per-step-type `switch` of `generate` together with the
individual `generateXxxCode` helpers.  A template that calls `.replace` on
a missing required field (`url`/`value`/`expression`) throws the uncaught
`TypeError` (`Except.error`); template interpolations of other missing
fields render the JS `undefined`. -/
def stepCodeOf (step : RecStep) (overrideCode : Option String) : Except String String :=
  match step.type with
  | "navigate" =>
    match step.url with
    | none => .error undefinedReplaceError
    | some url =>
      let u := escapeQuotesOnly url
      .ok ("await page.goto(\x27" ++ u ++ "\x27);\ntry \x7b await page.waitForLoadState(\x27domcontentloaded\x27); \x7d catch \x7b /* timeout OK */ \x7d")
  | "click" =>
    let locCode := overrideCode.getD (getBestLocatorCode step)
    let clickLine :=
      if step.button = some "secondary" then "await locator.click(\x7b button: \x27right\x27 \x7d);"
      else "await locator.click();"
    .ok (String.intercalate "\n"
      [s!"const locator = {locCode};", "await expect(locator).toBeVisible();", clickLine])
  | "doubleClick" =>
    let locCode := overrideCode.getD (getBestLocatorCode step)
    .ok (String.intercalate "\n"
      [s!"const locator = {locCode};", "await expect(locator).toBeVisible();",
        "await locator.dblclick();"])
  | "change" =>
    match step.value with
    | none => .error undefinedReplaceError
    | some value =>
      let locCode := overrideCode.getD (getBestLocatorCode step)
      let v := escapeQuotesOnly value
      .ok (String.intercalate "\n"
        [s!"const locator = {locCode};", "await expect(locator).toBeVisible();",
          s!"await locator.fill(\x27{v}\x27);"])
  | "keyDown" =>
    let k := jsStrField step.key
    .ok s!"await page.keyboard.down(\x27{k}\x27);"
  | "keyUp" =>
    let k := jsStrField step.key
    .ok s!"await page.keyboard.up(\x27{k}\x27);"
  | "scroll" =>
    let x := step.x.getD 0
    let y := step.y.getD 0
    (match step.selectors with
     | some selectors =>
       if selectors.isEmpty then .ok s!"await page.mouse.wheel({x}, {y});"
       else
         let locCode := overrideCode.getD (getBestLocatorCode step)
         .ok s!"await {locCode}.evaluate((el) => el.scrollBy({x}, {y}));"
     | none => .ok s!"await page.mouse.wheel({x}, {y});")
  | "hover" =>
    let locCode := overrideCode.getD (getBestLocatorCode step)
    .ok (String.intercalate "\n"
      [s!"const locator = {locCode};", "await expect(locator).toBeVisible();",
        "await locator.hover();"])
  | "setViewport" =>
    let w := jsNumField step.width
    let h := jsNumField step.height
    .ok ("await page.setViewportSize(\x7b width: " ++ w ++ ", height: " ++ h ++ " \x7d);")
  | "waitForElement" =>
    let locCode := overrideCode.getD (getBestLocatorCode step)
    .ok s!"await expect({locCode}).toBeVisible();"
  | "waitForExpression" =>
    match step.expression with
    | none => .error undefinedReplaceError
    | some expression =>
      let e := escapeQuotesOnly expression
      .ok s!"await page.waitForFunction(\x27{e}\x27);"
  | "customStep" =>
    let n := jsStrField step.name
    .ok s!"// Custom step: {n}"
  | other => .ok s!"// Unsupported step type: {other}"

/-- One brittle-selector report of the generator. -/
structure BrittleReport where
  recording : String
  step : Nat
  type : String
  selector : ScoredSelector
deriving Repr, DecidableEq

/-- Lookup in the generator's override map.  The source builds a JS `Map`
keyed by the string `` `${o.step}:${o.action}` `` with later entries
overwriting earlier ones; since the printed step number contains no colon,
the position of the first colon recovers the `(step, action)` pair, so the
map is modelled directly on those pairs and the lookup returns the last
matching entry's generated locator code. -/
def ovrLookup (entries : List OverrideEntry) (i : Int) (t : String) : Option String :=
  match entries.reverse.find? (fun e => e.step = i && e.action = t) with
  | some e => some (locatorOverrideToCode e.locator)
  | none => none

/-- Lookup in the generator's assertion map (keyed by `afterStep`, later
entries overwriting earlier ones). -/
def asrLookup (entries : List AssertionEntry) (i : Int) : Option (List AssertionExpect) :=
  (entries.reverse.find? (fun a => a.afterStep = i)).map (·.expect)

/-- The per-step loop of `generate`: emitted spec lines and brittle-selector
reports, from step index `i` on.  An uncaught template `TypeError`
(`Except.error`) propagates and aborts everything after it. -/
def genSteps (ovr : List OverrideEntry) (asr : List AssertionEntry) (recTitle : String) :
    Nat → List RecStep → Except String (List String × List BrittleReport)
  | _, [] => .ok ([], [])
  | i, rawStep :: rest =>
    let overrideCode := ovrLookup ovr (i : Int) rawStep.type
    let brittleHere : List BrittleReport :=
      match overrideCode with
      | some _ => []
      | none =>
        match getBestScoredSelector rawStep with
        | some scored =>
          if scored.brittle then
            [{ recording := recTitle, step := i, type := rawStep.type, selector := scored }]
          else []
        | none => []
    match stepCodeOf rawStep overrideCode with
    | .error e => .error e
    | .ok stepCode =>
      let header := "  await test.step(\x27step " ++ toString i ++ ": " ++ rawStep.type
        ++ "\x27, async () => \x7b"
      let stepLines := [header, indent stepCode 2, "  \x7d);", ""]
      let assertLines :=
        match asrLookup asr (i : Int) with
        | some exps =>
          ["  await test.step(\x27assert after step " ++ toString i ++ "\x27, async () => \x7b"]
            ++ exps.map (fun exp => indent (generateAssertionCode exp) 2)
            ++ ["  \x7d);", ""]
        | none => []
      match genSteps ovr asr recTitle (i + 1) rest with
      | .error e => .error e
      | .ok (restLines, restBrittle) =>
        .ok (stepLines ++ assertLines ++ restLines, brittleHere ++ restBrittle)

/-- Per-recording code generation of `generate`: the full generated spec
lines plus the brittle-selector reports collected for this recording, or
the uncaught template `TypeError` when a step template reads a missing
required field. -/
def genRecording (rec : Recording) (overrides : Option OverridesFile)
    (assertions : Option AssertionsFile) : Except String (List String × List BrittleReport) :=
  let ovrEntries := (overrides.map (·.overrides)).getD []
  let asrEntries := (assertions.map (·.assertions)).getD []
  match genSteps ovrEntries asrEntries rec.title 0 rec.steps with
  | .error e => .error e
  | .ok (stepLines, brittle) =>
    .ok (["// DO NOT EDIT — auto-generated by npm run gen:recordings"
      , "im" ++ "port \x7b test, expect \x7d from \x27@playwright/test\x27;"
      , ""
      , "test(\x27" ++ escapeQuotesOnly rec.title ++ "\x27, async (\x7b page \x7d) => \x7b"]
      ++ stepLines ++ ["\x7d);", ""], brittle)

/-! ### Batch outcome of `generate` -/

/-- One rejected-file report (`InvalidRecordingReport`). -/
structure InvalidRecordingReport where
  file : String
  reason : String
deriving Repr, DecidableEq

/-- A discovered recording file after JSON parsing and schema validation:
either rejected with a reason (invalid JSON, HAR detected, or schema
mismatch), or a valid recording together with its sidecars. -/
inductive ParsedFile where
  | invalid (reason : String)
  | valid (rec : Recording) (overrides : Option OverridesFile) (assertions : Option AssertionsFile)
deriving Repr, DecidableEq

/-- Output path of the generated spec for a valid recording. -/
def outPathOf (rec : Recording) : String :=
  "tests/recordings/" ++ sanitizeFilename rec.title ++ ".spec.ts"

deriving instance DecidableEq for Except

/-- State of the per-file loop of `generate` when it stops: the files
written so far (a durable side effect), the brittle reports and rejected
files collected so far, and — when a template `TypeError` escaped — the
uncaught error that aborted the loop (everything after it unprocessed). -/
structure ProcessOutcome where
  written : List String
  brittle : List BrittleReport
  invalid : List InvalidRecordingReport
  crashed : Option String
deriving Repr, DecidableEq

/-- The per-file loop of `generate`: `continue` on invalid files, write the
generated spec for valid ones, and abort the rest of the batch when a step
template throws. -/
def processFiles : List (String × ParsedFile) → ProcessOutcome
  | [] => { written := [], brittle := [], invalid := [], crashed := none }
  | (path, .invalid reason) :: rest =>
    let r := processFiles rest
    { written := r.written, brittle := r.brittle
    , invalid := { file := path, reason := reason } :: r.invalid, crashed := r.crashed }
  | (_path, .valid rec o a) :: rest =>
    match genRecording rec o a with
    | .error e => { written := [], brittle := [], invalid := [], crashed := some e }
    | .ok (_, brittle) =>
      let r := processFiles rest
      { written := outPathOf rec :: r.written, brittle := brittle ++ r.brittle
      , invalid := r.invalid, crashed := r.crashed }

/-- The lines of the all-rejected error message thrown by `generate`
(`relative(ROOT, RECORDINGS_DIR)` is the literal `recordings`). -/
def rejectionLines (invalid : List InvalidRecordingReport) : List String :=
  let badCount := invalid.length
  let noun := if badCount = 1 then "file" else "files"
  ["No valid DevTools Recorder JSON files found in recordings.",
    s!"Rejected {badCount} {noun}:"]
    ++ invalid.map (fun r => "- " ++ r.file ++ ": " ++ r.reason)
    ++ ["Export from Chrome DevTools -> Recorder -> Export as JSON."]

/-- The all-rejected error message (`[…].join('\n')`). -/
def allRejectedMessage (invalid : List InvalidRecordingReport) : String :=
  String.intercalate "\n" (rejectionLines invalid)

/-- Diagnostic of the strict-mode `process.exit(1)` on brittle selectors. -/
def strictBrittleMessage : String :=
  "RECORDINGS_STRICT_SELECTORS is enabled — failing due to brittle selectors."

/-- Observable batch outcome of one `generate()` run: the files written (a
side effect that happens before any late failure), the brittle reports, and
the fatal error if the run ends non-zero (`none` = normal return). -/
structure GenBatchResult where
  filesWritten : List String
  brittleSelectors : List BrittleReport
  error : Option String
deriving Repr, DecidableEq

/-- Mirror of the batch logic of `generate`: empty discovery returns
normally with nothing written; otherwise process every file — an uncaught
template `TypeError` turns the whole run into a non-zero exit with only the
files written before the crash — then fail with the all-rejected message
when nothing was written and at least one file was rejected; then, in
strict mode, exit non-zero when brittle selectors were reported. -/
def generateBatch (strict : Bool) (files : List (String × ParsedFile)) : GenBatchResult :=
  if files.isEmpty then { filesWritten := [], brittleSelectors := [], error := none }
  else
    let r := processFiles files
    match r.crashed with
    | some e =>
      { filesWritten := r.written, brittleSelectors := r.brittle, error := some e }
    | none =>
      if r.written.isEmpty && !r.invalid.isEmpty then
        { filesWritten := r.written, brittleSelectors := r.brittle
        , error := some (allRejectedMessage r.invalid) }
      else if !r.brittle.isEmpty && strict then
        { filesWritten := r.written, brittleSelectors := r.brittle
        , error := some strictBrittleMessage }
      else { filesWritten := r.written, brittleSelectors := r.brittle, error := none }

/-! ## Override validation (src/recorder/review.ts) -/

/-- The issues `validateOverridesAgainstRecording` collects for one override
entry: out-of-range step index, or action-type mismatch with the recorded
step.  (The source's third issue — a recording step whose `type` field is
missing or not a string — is unrepresentable here because the embedded
`RecStep.type` is always a string.) -/
def entryIssues (recording : Recording) (entry : OverrideEntry) : List String :=
  let s := entry.step
  let a := entry.action
  let n := recording.steps.length
  if entry.step < 0 || (recording.steps.length : Int) ≤ entry.step then
    [s!"step {s}:{a} is out of range (recording has {n} steps)"]
  else
    match recording.steps.get? entry.step.toNat with
    | none => []
    | some st =>
      if st.type ≠ entry.action then
        let t := st.type
        [s!"step {s} action mismatch: override uses \"{a}\" but recording step type is \"{t}\""]
      else []

/-- Mirror of `validateOverridesAgainstRecording`: throw (as `Except.error`)
listing every issue when any override entry fails validation. -/
def validateOverridesAgainstRecording (overrides : OverridesFile)
    (recording : Recording) : Except String Unit :=
  let issues := (overrides.overrides.map (entryIssues recording)).flatten
  if issues.isEmpty then .ok ()
  else .error ("Override validation failed: " ++ String.intercalate "; " issues)

/-- An override entry is valid for a recording iff validation collects no
issue for it: its step index is in range and its action equals the recorded
step type. -/
def validOverrideEntry (recording : Recording) (entry : OverrideEntry) : Bool :=
  (entryIssues recording entry).isEmpty

/-! ## Derived predicates and small helpers used by the claim statements -/

/-- The trimmed raw string parses as an ARIA role+name selector
(`aria/<name>[role="<role>"]`). -/
def ariaRoleNameSel (raw : String) : Bool :=
  match ariaParse (trimChars raw.toList) with
  | some (_, some _) => true
  | _ => false

/-- The argument `parseSelectorL` hands to `scoreCssSelector` when the
string classifies as CSS: the trimmed text with a `pierce/` prefix
stripped. -/
def cssArgL (t : List Char) : List Char :=
  if isPrefixL "pierce/".toList t then t.drop 7 else t

/-- `cssArgL` at the string boundary. -/
def cssArgOf (raw : String) : List Char := cssArgL (trimChars raw.toList)

/-- The CSS text actually scored: `cssArgOf` with a further `css/` prefix
stripped (as done at the top of `scoreCssSelector`). -/
def cssTargetOf (raw : String) : List Char := stripCssPre (cssArgOf raw)

/-- The raw string reaches the plain-CSS penalty pipeline: it does not parse
as an ARIA, text or xpath selector, and the scored CSS text is neither a
bare `#id` nor a recognised `data-*` attribute selector. -/
def plainCssPath (raw : String) : Bool :=
  let t := trimChars raw.toList
  (ariaParse t).isNone && (restCapture "text/".toList t).isNone
    && (restCapture "xpath/".toList t).isNone
    && (idCapture? (cssTargetOf raw)).isNone
    && (dataAttrCapture? dataAttrNames (cssTargetOf raw)).isNone

/-- The oracle consultation `evaluateExpectation` performs for a given
expectation: the visibility oracle for `visible_text`; the locator (or,
without a locator, the text) oracle for `locator_visible`; a pure,
non-throwing URL check otherwise. -/
def expectationOracle (page : Page) (expectation : Expectation) (timeout : Nat) :
    Except String Bool :=
  if expectation.type = "visible_text" then page.textVisible expectation.value timeout
  else if expectation.type = "locator_visible" then
    match expectation.locator with
    | some spec => page.locVisible spec timeout
    | none => page.textVisible expectation.value timeout
  else .ok (jsIncludes page.url expectation.value)

/-- The error message `evaluateExpectation` attaches when the consulted
oracle throws with message `m`: the `visible_text` branch wraps it as
`` `Text "<value>" not found: <m>` ``, the `locator_visible` branch as
`` `Locator check failed: <m>` `` (no other branch can throw). -/
def thrownErrorMessage (e : Expectation) (m : String) : String :=
  if e.type = "visible_text" then "Text \"" ++ e.value ++ "\" not found: " ++ m
  else "Locator check failed: " ++ m

/-- Ghost model-call count of a loop outcome. -/
def llmCallsOf : LoopState ⊕ (StepResult × Nat) → Nat
  | .inl st => st.llmCalls
  | .inr (_, n) => n

/-- The post-loop error message of `executeStep`
(`` `Max ticks (${max}) exceeded without meeting expectations` ``). -/
def maxTicksMessage (n : Nat) : String :=
  "Max ticks (" ++ toString n ++ ") exceeded without meeting expectations"

/-- Is a discovered file one the generator rejects? -/
def isInvalidFile : ParsedFile → Bool
  | .invalid _ => true
  | .valid _ _ _ => false

/-- Did `validateOverridesAgainstRecording` succeed? -/
def validationOk : Except String Unit → Bool
  | .ok _ => true
  | .error _ => false

/-! ## Concrete fixtures for witnesses and counterexamples -/

/-- A page on which every visibility probe reports not-visible. -/
def stubPage : Page :=
  { url := "https://example.test/"
  , textVisible := fun _ _ => .ok false
  , locVisible := fun _ _ => .ok false }

/-- A page on which every expectation passes (URL contains `/dashboard`,
every visibility probe reports visible). -/
def passPage : Page :=
  { url := "https://example.test/dashboard"
  , textVisible := fun _ _ => .ok true
  , locVisible := fun _ _ => .ok true }

/-- A page whose visibility oracles throw. -/
def throwPage : Page :=
  { url := "https://example.test/"
  , textVisible := fun _ _ => .error "boom"
  , locVisible := fun _ _ => .error "kaput" }

/-- An environment whose model backend is unreachable (every
`llm.generateAction` call throws), whose in-loop page never satisfies
anything, and whose post-loop page satisfies everything. -/
def stubEnv : AgentEnv :=
  { pageSnapshot := fun _ => ("https://example.test/", "Example", "- document", "hello")
  , llm := fun _ => .error "ECONNREFUSED"
  , parse := fun _ => .error "No JSON object found in LLM response"
  , exec := fun _ _ => (true, none)
  , pageAt := fun _ => stubPage
  , finalPage := passPage }

/-- A step that declares one expectation. -/
def expStep : TestStep :=
  { goal := "open the dashboard"
  , expect := some [{ type := "url_contains", value := "/dashboard" }] }

/-- The default configuration with a zero-tick budget. -/
def cfgZeroTicks : RunnerConfig := { defaultRunnerConfig with maxTicksPerStep := 0 }

/-- The default configuration with a one-tick budget. -/
def cfgOneTick : RunnerConfig := { defaultRunnerConfig with maxTicksPerStep := 1 }

/-- A one-step recording (a single `navigate`). -/
def demoRecording : Recording :=
  { title := "Demo", steps := [{ type := "navigate", url := some "https://example.test/" }] }

/-- An override whose step index is out of range for `demoRecording`. -/
def outOfRangeOverrides : OverridesFile :=
  { overrides := [{ step := 5, action := "click"
                  , locator := { kind := "css", selector := some ".btn" } }] }

/-- An override whose action type mismatches the recorded step type of
`demoRecording` (step 0 is a `navigate`). -/
def mismatchOverrides : OverridesFile :=
  { overrides := [{ step := 0, action := "click"
                  , locator := { kind := "css", selector := some ".btn" } }] }

/-- A batch with one valid recording. -/
def loginRecording : Recording :=
  { title := "Login Flow", steps := [{ type := "navigate", url := some "https://example.test/" }] }

/-- A discovered batch consisting only of rejected files. -/
def allInvalidBatch : List (String × ParsedFile) :=
  [("recordings/a.json", .invalid "invalid JSON (Unexpected token)"),
   ("recordings/b.har.json", .invalid "HAR detected (Network export). Expected DevTools Recorder JSON with top-level \"title\" and \"steps\".")]

/-- A discovered batch mixing one rejected file with one valid recording. -/
def mixedBatch : List (String × ParsedFile) :=
  [("recordings/a.json", .invalid "schema mismatch (title: Required)"),
   ("recordings/login.json", .valid loginRecording none none)]

/-- A schema-valid recording whose `navigate` step has no `url` field: the
generator's template crashes on it. -/
def crashRecording : Recording :=
  { title := "Crash", steps := [{ type := "navigate" }] }

/-- A batch whose first (schema-valid) recording crashes the generator,
aborting the processing of the valid sibling after it. -/
def crashBatch : List (String × ParsedFile) :=
  [("recordings/crash.json", .valid crashRecording none none),
   ("recordings/login.json", .valid loginRecording none none)]

/-! # Theorems -/

/-! ## Stable sort and tie-break (claims C5, C9) -/

/-- Head of a stable descending insertion: the inserted element, unless the
old head strictly outscores it. -/
theorem head?_insertDesc (x : ScoredSelector) (s : List ScoredSelector) :
    (insertDesc x s).head? =
      some (match s with
            | [] => x
            | y :: _ => if x.score < y.score then y else x) := by
  cases s with
  | nil => rfl
  | cons y rest =>
    unfold insertDesc
    split <;> simp [*]

/-- Head of the stable descending sort = earliest-listed maximal-score
element. -/
theorem head?_sortByScoreDesc (l : List ScoredSelector) :
    (sortByScoreDesc l).head? = specBestCandidate l := by
  induction l with
  | nil => rfl
  | cons c rest ih =>
    unfold sortByScoreDesc specBestCandidate
    rw [head?_insertDesc]
    cases h : sortByScoreDesc rest with
    | nil =>
      rw [h] at ih
      rw [← ih]
      simp
    | cons y t =>
      rw [h] at ih
      rw [← ih]
      simp

/-- `specBestCandidate` is `some` on a nonempty list. -/
theorem specBestCandidate_cons (c : ScoredSelector) (rest : List ScoredSelector) :
    ∃ z, specBestCandidate (c :: rest) = some z := by
  unfold specBestCandidate
  cases h : specBestCandidate rest <;> simp

/-- Claim C5: `selectBestSelector` is deterministic (it is a pure function of
its input: equal inputs give identical `{code, score, brittle}` results),
and it agrees with the specification-side pick: candidates are ordered by
descending score with a stable sort, so among equal maximal scores the
earlier-listed alternative wins. -/
theorem selectBestSelector_deterministic_stable :
    (∀ s1 s2 : List (List String), s1 = s2 → selectBestSelector s1 = selectBestSelector s2) ∧
    (∀ ss : List (List String), selectBestSelector ss = specBestSelector ss) := by
  refine ⟨fun s1 s2 h => by rw [h], fun ss => ?_⟩
  unfold selectBestSelector specBestSelector
  cases h : candidatesOf ss with
  | nil => simp [h, specBestCandidate]
  | cons c rest =>
    simp only [h, List.isEmpty_cons, if_neg]
    have hh := head?_sortByScoreDesc (c :: rest)
    cases hs : sortByScoreDesc (c :: rest) with
    | nil =>
      rw [hs] at hh
      obtain ⟨z, hz⟩ := specBestCandidate_cons c rest
      rw [hz] at hh
      cases hh
    | cons b t =>
      rw [hs] at hh
      rw [← hh]
      rfl

/-- Witness for claim C5 at a concrete input (the two hypotheses of the
determinism part are discharged with `rfl`). -/
theorem selectBestSelector_deterministic_stable_witness :
    selectBestSelector [["text/A"], ["text/B"]] = selectBestSelector [["text/A"], ["text/B"]] ∧
    selectBestSelector [["text/A"], ["text/B"]] = specBestSelector [["text/A"], ["text/B"]] :=
  ⟨selectBestSelector_deterministic_stable.1 _ _ rfl,
   selectBestSelector_deterministic_stable.2 _⟩

/-- Claim C9: whenever no alternative has a nonempty inner array (including
the empty list), `selectBestSelector` returns the body fallback locator with
score 0, brittle = true and reason "no selectors provided". -/
theorem selectBestSelector_empty_fallback :
    ∀ ss : List (List String), (∀ alt ∈ ss, alt = []) →
      selectBestSelector ss =
        { code := "page.locator(\x27body\x27)", score := 0, raw := "body"
        , brittle := true, reason := "no selectors provided" } := by
  intro ss h
  have hc : candidatesOf ss = [] := by
    unfold candidatesOf
    rw [List.filterMap_eq_nil_iff]
    intro alt halt
    rw [h alt halt]
  unfold selectBestSelector
  rw [hc]
  rfl

/-- Witness for claim C9: a list consisting only of empty alternatives. -/
theorem selectBestSelector_empty_fallback_witness :
    (∀ alt ∈ [([] : List String), []], alt = []) ∧
    selectBestSelector [[], []] =
      { code := "page.locator(\x27body\x27)", score := 0, raw := "body"
      , brittle := true, reason := "no selectors provided" } :=
  ⟨by simp, selectBestSelector_empty_fallback [[], []] (by simp)⟩

/-! ## Selector scoring formula (claims C3, C4) -/

/-- The `aria/`-prefix guard of `parseSelectorL` is redundant: the regex of
`parseAriaSelector` is anchored on the same prefix. -/
theorem aria_guard (t : List Char) :
    (if isPrefixL "aria/".toList t then parseAriaSelector t else none) =
      parseAriaSelector t := by
  cases h : isPrefixL "aria/".toList t with
  | true => simp
  | false =>
    unfold parseAriaSelector ariaParse
    rw [h]
    simp

/-- The `text/`-prefix guard of `parseSelectorL` is redundant. -/
theorem text_guard (t : List Char) :
    (if isPrefixL "text/".toList t then parseTextSelector t else none) =
      parseTextSelector t := by
  cases h : isPrefixL "text/".toList t with
  | true => simp
  | false =>
    unfold parseTextSelector restCapture
    rw [h]
    simp

/-- The `xpath/`-prefix guard of `parseSelectorL` is redundant. -/
theorem xpath_guard (t : List Char) :
    (if isPrefixL "xpath/".toList t then parseXpathSelector t else none) =
      parseXpathSelector t := by
  cases h : isPrefixL "xpath/".toList t with
  | true => simp
  | false =>
    unfold parseXpathSelector restCapture
    rw [h]
    simp

/-- The sequential score/penalty pipeline of `scoreCssSelector` computes the
arithmetic formula of the specification. -/
theorem scoreCssSelector_score (m : List Char) :
    (scoreCssSelector m).score = specCssScore dataAttrNames (stripCssPre m) := by
  unfold scoreCssSelector specCssScore
  cases h1 : idCapture? (stripCssPre m) with
  | some id => simp [h1]
  | none =>
    cases h2 : dataAttrCapture? dataAttrNames (stripCssPre m) with
    | some v => simp [h1, h2]
    | none =>
      by_cases hn : hasNth (stripCssPre m) = true <;>
      by_cases hc : 3 < combinatorCount (stripCssPre m) <;>
      by_cases hk : 3 < classCount (stripCssPre m) <;>
      by_cases hg : looksGenerated (stripCssPre m) = true <;>
      simp [h1, h2, hn, hc, hk, hg]

/-- Score agreement between `parseSelectorL` and the spec-side formula with
the source's four attribute spellings. -/
theorem parseSelectorL_score (l : List Char) :
    (parseSelectorL l).score = specSelectorScoreWith dataAttrNames l := by
  simp only [parseSelectorL, specSelectorScoreWith]
  rw [aria_guard, text_guard, xpath_guard]
  cases ha : ariaParse (trimChars l) with
  | some pair =>
    obtain ⟨name, roleOpt⟩ := pair
    cases roleOpt <;> simp only [parseAriaSelector, ha]
  | none =>
    simp only [parseAriaSelector, ha]
    cases ht : restCapture "text/".toList (trimChars l) with
    | some rest =>
      simp only [parseTextSelector, ht, Option.isSome_some]
      simp
    | none =>
      simp only [parseTextSelector, ht, Option.isSome_none]
      cases hx : restCapture "xpath/".toList (trimChars l) with
      | some rest =>
        simp only [parseXpathSelector, hx, Option.isSome_some]
        simp
      | none =>
        simp only [parseXpathSelector, hx, Option.isSome_none]
        cases hp : isPrefixL "pierce/".toList (trimChars l) <;>
          simp only [hp, scoreCssSelector_score, Bool.false_eq_true, if_true, if_false]

/-- Claim C3 (amended): for every raw selector string the scorer assigns
exactly the class scores of the specification — ARIA role+name 100, ARIA
label 90, text 80, xpath 20, CSS baseline 60 replaced by 70 for a bare
`#id` and by 85 for a `data-testid`/`data-test-id`/`data-test`/`data-cy`
attribute selector, with the cumulative CSS penalties floored at 0. -/
theorem selector_score_formula :
    ∀ raw : String, (parseSelector raw).score = specSelectorScoreAmended raw :=
  fun raw => parseSelectorL_score raw.toList

/-- Counterexample to claim C3 as stated: the source regex also grants the
fixed 85 to the `data-test-id` spelling, which the claim's enumeration
(`data-testid`/`data-test`/`data-cy`) assigns the plain CSS baseline 60. -/
theorem selector_score_formula_counterexample :
    (parseSelector "[data-test-id=login]").score = 85 ∧
    specSelectorScoreClaimed "[data-test-id=login]" = 60 ∧
    (parseSelector "[data-test-id=login]").score ≠
      specSelectorScoreClaimed "[data-test-id=login]" :=
  ⟨by decide, by decide, by decide⟩

/-- In the plain-CSS pipeline, an `nth-child`/`nth-of-type` occurrence
always sets the brittle flag. -/
theorem scoreCssSelector_brittle_nth (m : List Char)
    (h1 : idCapture? (stripCssPre m) = none)
    (h2 : dataAttrCapture? dataAttrNames (stripCssPre m) = none)
    (h3 : hasNth (stripCssPre m) = true) :
    (scoreCssSelector m).brittle = true := by
  unfold scoreCssSelector
  by_cases hc : 3 < combinatorCount (stripCssPre m) <;>
  by_cases hk : 3 < classCount (stripCssPre m) <;>
  by_cases hg : looksGenerated (stripCssPre m) = true <;>
  simp [h1, h2, h3, hc, hk, hg]

/-- An ARIA role+name parse forces `brittle = false` in `parseSelectorL`. -/
theorem parseSelectorL_brittle_aria (l name role : List Char)
    (ha : ariaParse (trimChars l) = some (name, some role)) :
    (parseSelectorL l).brittle = false := by
  simp only [parseSelectorL]
  rw [aria_guard]
  simp only [parseAriaSelector, ha]

/-- When no ARIA/text/xpath parse succeeds, `parseSelectorL` scores the
trimmed text (with any `pierce/` prefix dropped) as CSS. -/
theorem parseSelectorL_css (l : List Char)
    (ha : ariaParse (trimChars l) = none)
    (ht : restCapture "text/".toList (trimChars l) = none)
    (hx : restCapture "xpath/".toList (trimChars l) = none) :
    parseSelectorL l = scoreCssSelector (cssArgL (trimChars l)) := by
  simp only [parseSelectorL]
  rw [aria_guard, text_guard, xpath_guard]
  simp only [parseAriaSelector, ha, parseTextSelector, ht, parseXpathSelector, hx]
  cases hpp : isPrefixL "pierce/".toList (trimChars l) <;>
    simp only [cssArgL, hpp, if_true, Bool.false_eq_true, if_false]

/-- Claim C4 (amended): an ARIA role+name selector is never flagged brittle;
and a selector that reaches the plain-CSS penalty pipeline (not ARIA, text
or xpath, nor a bare `#id` or `data-*` attribute bonus pattern) and contains
`nth-child`/`nth-of-type` is always flagged brittle. -/
theorem selector_brittleness_invariant :
    (∀ raw : String, ariaRoleNameSel raw = true → (parseSelector raw).brittle = false) ∧
    (∀ raw : String, plainCssPath raw = true → hasNth (cssTargetOf raw) = true →
        (parseSelector raw).brittle = true) := by
  constructor
  · intro raw h
    unfold ariaRoleNameSel at h
    split at h
    case _ name role ha => exact parseSelectorL_brittle_aria raw.toList name role ha
    case _ => cases h
  · intro raw hp hn
    unfold plainCssPath at hp
    simp only [Bool.and_eq_true, Option.isNone_iff_eq_none] at hp
    obtain ⟨⟨⟨⟨ha, ht⟩, hx⟩, hid⟩, hdata⟩ := hp
    show (parseSelectorL raw.toList).brittle = true
    rw [parseSelectorL_css raw.toList ha ht hx]
    exact scoreCssSelector_brittle_nth _ hid hdata hn

/-- Counterexample to claim C4 as stated: `#nth-child` contains the
substring `nth-child` but is classified as a bare `#id` (the id character
class admits `-`), so its Scored Selector has `brittle = false`. -/
theorem selector_brittleness_invariant_counterexample :
    jsIncludes "#nth-child" "nth-child" = true ∧
    (parseSelector "#nth-child").brittle = false :=
  ⟨by decide, by decide⟩

/-! ## Expectation evaluation (claim C7) -/

/-- Claim C7: `evaluateExpectation` always returns a result — a thrown
oracle error with message `m` is converted into exactly the failed result
that carries `m` inside its branch's error message, and an unknown type tag
yields a failed result with a message naming the tag; and
`evaluateAllExpectations` evaluates every expectation of the list (no
short-circuit) and reports `allPassed = true` iff every individual result
passed. -/
theorem expectation_evaluation_total :
    (∀ (page : Page) (e : Expectation) (t : Nat) (m : String),
        expectationOracle page e t = .error m →
        evaluateExpectation page e t =
          { expectation := e, passed := false
          , error := some (thrownErrorMessage e m) }) ∧
    (∀ (page : Page) (e : Expectation) (t : Nat),
        e.type ≠ "url_contains" → e.type ≠ "visible_text" → e.type ≠ "locator_visible" →
        evaluateExpectation page e t =
          { expectation := e, passed := false
          , error := some ("Unknown expectation type: " ++ e.type) }) ∧
    (∀ (page : Page) (es : List Expectation) (t : Option Nat),
        (evaluateAllExpectations page es t).results =
          es.map (fun e => evaluateExpectation page e (t.getD 3000)) ∧
        ((evaluateAllExpectations page es t).allPassed = true ↔
          ∀ r ∈ (evaluateAllExpectations page es t).results, r.passed = true)) := by
  refine ⟨?_, ?_, ?_⟩
  · intro page e t m hor
    unfold expectationOracle at hor
    unfold evaluateExpectation thrownErrorMessage
    by_cases h2 : e.type = "visible_text"
    · simp [h2] at hor ⊢
      simp [hor]
    · by_cases h3 : e.type = "locator_visible"
      · cases hl : e.locator with
        | some spec =>
          simp [h2, h3, hl] at hor ⊢
          simp [hor]
        | none =>
          simp [h2, h3, hl] at hor ⊢
          simp [hor]
      · simp [h2, h3] at hor
  · intro page e t h1 h2 h3
    unfold evaluateExpectation
    simp [h1, h2, h3]
  · intro page es t
    refine ⟨rfl, ?_⟩
    simp [evaluateAllExpectations, List.all_eq_true]

/-- Witness for claim C7: a page whose visibility oracle throws `boom` —
the failed result carries exactly `Text "Welcome" not found: boom` — and an
expectation with an unknown type tag. -/
theorem expectation_evaluation_total_witness :
    expectationOracle throwPage { type := "visible_text", value := "Welcome" } 3000 =
      .error "boom" ∧
    evaluateExpectation throwPage { type := "visible_text", value := "Welcome" } 3000 =
      { expectation := { type := "visible_text", value := "Welcome" }, passed := false
      , error := some "Text \"Welcome\" not found: boom" } ∧
    evaluateExpectation throwPage { type := "bogus", value := "x" } 3000 =
      { expectation := { type := "bogus", value := "x" }, passed := false
      , error := some ("Unknown expectation type: " ++ "bogus") } :=
  ⟨rfl,
   (expectation_evaluation_total.1 throwPage
     { type := "visible_text", value := "Welcome" } 3000 "boom" rfl).trans (by decide),
   expectation_evaluation_total.2.1 throwPage
     { type := "bogus", value := "x" } 3000 (by decide) (by decide) (by decide)⟩

/-! ## The runner's tick loop (claims C1, C2, C10) -/

/-- Once at least one tick has run (or an observation is already recorded),
the state the loop falls out with has a recorded observation: every
iteration stores the freshly collected observation before any `continue`. -/
theorem runTicks_inl_obs (env : AgentEnv) (cfg : RunnerConfig) (step : TestStep)
    (es : List Expectation) :
    ∀ (remaining tick : Nat) (st st' : LoopState),
      runTicks env cfg step es remaining tick st = .inl st' →
      (st.lastObservation.isSome = true ∨ 1 ≤ remaining) →
      st'.lastObservation.isSome = true := by
  intro remaining
  induction remaining with
  | zero =>
    intro tick st st' h hd
    simp only [runTicks, Sum.inl.injEq] at h
    subst h
    rcases hd with h1 | h2
    · exact h1
    · omega
  | succ rem ih =>
    intro tick st st' h _
    simp only [runTicks] at h
    split at h
    · exact ih _ _ _ h (Or.inl rfl)
    · split at h
      · exact ih _ _ _ h (Or.inl rfl)
      · split at h
        · exact absurd h (by simp)
        · exact ih _ _ _ h (Or.inl rfl)
        all_goals
          split at h
          · exact ih _ _ _ h (Or.inl rfl)
          · split at h
            · exact absurd h (by simp)
            · exact ih _ _ _ h (Or.inl rfl)

/-- Each loop iteration performs exactly one model call, so the ghost call
count grows by at most the remaining tick budget. -/
theorem runTicks_llmCalls (env : AgentEnv) (cfg : RunnerConfig) (step : TestStep)
    (es : List Expectation) :
    ∀ (remaining tick : Nat) (st : LoopState),
      llmCallsOf (runTicks env cfg step es remaining tick st) ≤ st.llmCalls + remaining := by
  intro remaining
  induction remaining with
  | zero =>
    intro tick st
    simp [runTicks, llmCallsOf]
  | succ rem ih =>
    intro tick st
    simp only [runTicks]
    split
    · exact (ih _ _).trans (by simp; omega)
    · split
      · exact (ih _ _).trans (by simp; omega)
      · split
        · simp [llmCallsOf]
        · exact (ih _ _).trans (by simp; omega)
        all_goals
          split
          · exact (ih _ _).trans (by simp; omega)
          · split
            · simp [llmCallsOf]
            · exact (ih _ _).trans (by simp; omega)

/-- Claim C2: for a tick budget `maxTicksPerStep = N`, one `executeStep`
call invokes `llm.generateAction` at most `N` times. -/
theorem runner_llm_call_budget :
    ∀ (env : AgentEnv) (cfg : RunnerConfig) (step : TestStep),
      (executeStepCore env cfg step).2 ≤ cfg.maxTicksPerStep := by
  intro env cfg step
  have h := runTicks_llmCalls env cfg step (step.expect.getD [])
    cfg.maxTicksPerStep 1 initialLoopState
  rw [show initialLoopState.llmCalls = 0 from rfl, Nat.zero_add] at h
  simp only [executeStepCore, runTicksOf] at *
  cases hr : runTicks env cfg step (step.expect.getD []) cfg.maxTicksPerStep 1
      initialLoopState with
  | inl st =>
    rw [hr] at h
    simpa [llmCallsOf] using h
  | inr p =>
    obtain ⟨res, n⟩ := p
    rw [hr] at h
    simpa [llmCallsOf] using h

/-- Claim C1 (amended): when the loop exhausts the tick budget with no
earlier terminal return, the step result is successful iff the step
declared zero expectations; with at least one expectation it carries the
max-ticks error message; and the debug bundle is present provided the
budget allowed at least one tick to run (with a zero-tick budget no
observation was ever collected and `debugInfo` is absent). -/
theorem runner_budget_exhaustion :
    ∀ (env : AgentEnv) (cfg : RunnerConfig) (step : TestStep),
      (runTicksOf env cfg step).isLeft = true →
      ((executeStep env cfg step).success = true ↔ step.expect.getD [] = []) ∧
      (step.expect.getD [] ≠ [] →
        (executeStep env cfg step).error = some (maxTicksMessage cfg.maxTicksPerStep)) ∧
      (1 ≤ cfg.maxTicksPerStep → (executeStep env cfg step).debugInfo.isSome = true) := by
  intro env cfg step hleft
  obtain ⟨st, hst⟩ : ∃ st, runTicksOf env cfg step = .inl st := by
    cases hr : runTicksOf env cfg step with
    | inl st => exact ⟨st, rfl⟩
    | inr p => rw [hr] at hleft; cases hleft
  have hobs : 1 ≤ cfg.maxTicksPerStep → st.lastObservation.isSome = true := fun hmax =>
    runTicks_inl_obs env cfg step (step.expect.getD []) cfg.maxTicksPerStep 1
      initialLoopState st hst (Or.inr hmax)
  simp only [executeStep, executeStepCore]
  rw [hst]
  refine ⟨?_, ?_, ?_⟩
  · simp [List.isEmpty_iff]
  · intro hne
    simp only [maxTicksMessage]
    simp [hne]
  · intro hmax
    simp [Option.isSome_map, hobs hmax]

/-- Counterexample to claim C1 as stated: with a zero-tick budget the
exhaustion path is taken (the max-ticks error is reported for a step with
one expectation), yet the promised debug info is absent, because no tick
ever stored an observation. -/
theorem runner_budget_exhaustion_counterexample :
    (executeStep stubEnv cfgZeroTicks expStep).success = false ∧
    (executeStep stubEnv cfgZeroTicks expStep).error = some (maxTicksMessage 0) ∧
    (executeStep stubEnv cfgZeroTicks expStep).debugInfo = none :=
  ⟨by decide, by decide, by decide⟩

/-- Witness for claim C1 (amended): a one-tick budget, an unreachable model
backend and a step with one expectation. -/
theorem runner_budget_exhaustion_witness :
    (runTicksOf stubEnv cfgOneTick expStep).isLeft = true ∧
    (executeStep stubEnv cfgOneTick expStep).error = some (maxTicksMessage 1) ∧
    (executeStep stubEnv cfgOneTick expStep).debugInfo.isSome = true := by
  refine ⟨rfl, ?_, ?_⟩
  · exact (runner_budget_exhaustion stubEnv cfgOneTick expStep rfl).2.1 (by decide)
  · exact (runner_budget_exhaustion stubEnv cfgOneTick expStep rfl).2.2 (by decide)

/-- An early successful return can only come from the in-loop expectation
check: it pins a tick within the budget window at which every expectation
passed. -/
theorem runTicks_inr_success (env : AgentEnv) (cfg : RunnerConfig) (step : TestStep)
    (es : List Expectation) :
    ∀ (remaining tick : Nat) (st : LoopState) (res : StepResult) (n : Nat),
      runTicks env cfg step es remaining tick st = .inr (res, n) →
      res.success = true →
      ∃ t, tick ≤ t ∧ t < tick + remaining ∧
        (evaluateAllExpectations (env.pageAt t) es (some cfg.expectationTimeoutMs)).allPassed
          = true := by
  intro remaining
  induction remaining with
  | zero =>
    intro tick st res n h _
    simp [runTicks] at h
  | succ rem ih =>
    intro tick st res n h hsucc
    simp only [runTicks] at h
    split at h
    · obtain ⟨t, h1, h2, h3⟩ := ih _ _ _ _ h hsucc
      exact ⟨t, by omega, by omega, h3⟩
    · split at h
      · obtain ⟨t, h1, h2, h3⟩ := ih _ _ _ _ h hsucc
        exact ⟨t, by omega, by omega, h3⟩
      · split at h
        · simp only [Sum.inr.injEq, Prod.mk.injEq] at h
          rw [← h.1] at hsucc
          cases hsucc
        · obtain ⟨t, h1, h2, h3⟩ := ih _ _ _ _ h hsucc
          exact ⟨t, by omega, by omega, h3⟩
        all_goals
          split at h
          · obtain ⟨t, h1, h2, h3⟩ := ih _ _ _ _ h hsucc
            exact ⟨t, by omega, by omega, h3⟩
          · rename_i hall
            split at h
            · simp only [Sum.inr.injEq, Prod.mk.injEq] at h
              refine ⟨tick, le_refl tick, by omega, ?_⟩
              rename_i hpassed
              exact hpassed
            · obtain ⟨t, h1, h2, h3⟩ := ih _ _ _ _ h hsucc
              exact ⟨t, by omega, by omega, h3⟩

/-- Claim C10: the post-loop evaluation's outcome never affects the success
flag — on exhaustion the result's `expectations` are the final evaluation's
results but `success` is determined solely by whether the step declared
zero expectations; and a successful step result can only arise from a step
with no expectations or from an in-loop evaluation that passed within the
budget window. -/
theorem postloop_evaluation_ignored :
    ∀ (env : AgentEnv) (cfg : RunnerConfig) (step : TestStep),
      ((runTicksOf env cfg step).isLeft = true →
        (executeStep env cfg step).success = (step.expect.getD []).isEmpty ∧
        (executeStep env cfg step).expectations =
          (evaluateAllExpectations env.finalPage (step.expect.getD [])
            (some cfg.expectationTimeoutMs)).results) ∧
      ((executeStep env cfg step).success = true →
        step.expect.getD [] = [] ∨
        ∃ t, 1 ≤ t ∧ t ≤ cfg.maxTicksPerStep ∧
          (evaluateAllExpectations (env.pageAt t) (step.expect.getD [])
            (some cfg.expectationTimeoutMs)).allPassed = true) := by
  intro env cfg step
  constructor
  · intro hleft
    obtain ⟨st, hst⟩ : ∃ st, runTicksOf env cfg step = .inl st := by
      cases hr : runTicksOf env cfg step with
      | inl st => exact ⟨st, rfl⟩
      | inr p => rw [hr] at hleft; cases hleft
    simp only [executeStep, executeStepCore]
    rw [hst]
    exact ⟨rfl, rfl⟩
  · intro hsucc
    cases hr : runTicksOf env cfg step with
    | inl st =>
      simp only [executeStep, executeStepCore] at hsucc
      rw [hr] at hsucc
      simp only at hsucc
      left
      rwa [← List.isEmpty_iff]
    | inr p =>
      obtain ⟨res, n⟩ := p
      simp only [executeStep, executeStepCore] at hsucc
      rw [hr] at hsucc
      simp only at hsucc
      right
      obtain ⟨t, h1, h2, h3⟩ :=
        runTicks_inr_success env cfg step (step.expect.getD [])
          cfg.maxTicksPerStep 1 initialLoopState res n hr hsucc
      exact ⟨t, h1, by omega, h3⟩

/-- Witness for claim C10: the loop exhausts its budget against an
unreachable model backend, the post-loop page satisfies the declared
expectation, and the step is nevertheless reported failed. -/
theorem postloop_evaluation_ignored_witness :
    (runTicksOf stubEnv cfgOneTick expStep).isLeft = true ∧
    (evaluateAllExpectations stubEnv.finalPage (expStep.expect.getD [])
      (some cfgOneTick.expectationTimeoutMs)).allPassed = true ∧
    (executeStep stubEnv cfgOneTick expStep).success = false := by
  have h := (postloop_evaluation_ignored stubEnv cfgOneTick expStep).1 rfl
  refine ⟨rfl, by decide, ?_⟩
  rw [h.1]
  decide

/-! ## Override validation and the generator pipeline (claims C6, C8) -/

/-- Filtering by a predicate that holds on every element the search
predicate accepts does not change a `find?`. -/
theorem find?_filter_of_imp {α : Type} (p q : α → Bool) :
    ∀ l : List α, (∀ x ∈ l, p x = true → q x = true) →
      (l.filter q).find? p = l.find? p := by
  intro l
  induction l with
  | nil => intro _; rfl
  | cons a t ih =>
    intro h
    by_cases hq : q a = true
    · rw [List.filter_cons_of_pos hq, List.find?_cons, List.find?_cons]
      cases hp : p a
      · exact ih fun x hx hpx => h x (List.mem_cons_of_mem a hx) hpx
      · rfl
    · have hp : p a = false := by
        cases hpa : p a
        · rfl
        · exact absurd (h a (List.mem_cons_self a t) hpa) hq
      rw [List.filter_cons_of_neg (by simp [hq]), List.find?_cons, hp]
      exact ih fun x hx hpx => h x (List.mem_cons_of_mem a hx) hpx

/-- An override-map lookup is unchanged by dropping entries whose key can
never be looked up. -/
theorem ovrLookup_filter (entries : List OverrideEntry) (q : OverrideEntry → Bool)
    (i : Int) (t : String)
    (h : ∀ e ∈ entries, e.step = i → e.action = t → q e = true) :
    ovrLookup (entries.filter q) i t = ovrLookup entries i t := by
  unfold ovrLookup
  rw [← List.filter_reverse]
  rw [find?_filter_of_imp]
  intro e he hp
  simp only [Bool.and_eq_true, decide_eq_true_eq] at hp
  exact h e (List.mem_reverse.mp he) hp.1 hp.2

/-- An override entry whose key matches an actual recorded step (same index,
same step type) is valid. -/
theorem valid_of_key_match (rec : Recording) (k : Nat) (rawStep : RecStep)
    (hk : rec.steps.get? k = some rawStep) (e : OverrideEntry)
    (hstep : e.step = (k : Int)) (hact : e.action = rawStep.type) :
    validOverrideEntry rec e = true := by
  have hlen : k < rec.steps.length := (List.get?_eq_some.mp hk).1
  unfold validOverrideEntry entryIssues
  rw [hstep, hact]
  have hcond : (((k : Int) < 0 || (rec.steps.length : Int) ≤ (k : Int)) = false) := by
    simp
    omega
  rw [if_neg (by simp [hcond]; omega)]
  rw [Int.toNat_natCast, hk]
  simp

/-- Dropping invalid override entries does not change any step of the
generated code nor the brittleness reports. -/
theorem genSteps_filter (rec : Recording) (ovr : List OverrideEntry)
    (asr : List AssertionEntry) :
    ∀ (suffix : List RecStep) (i : Nat),
      (∀ j s, suffix.get? j = some s → rec.steps.get? (i + j) = some s) →
      genSteps (ovr.filter (validOverrideEntry rec)) asr rec.title i suffix =
        genSteps ovr asr rec.title i suffix := by
  intro suffix
  induction suffix with
  | nil => intro i _; rfl
  | cons s rest ih =>
    intro i h
    have hs : rec.steps.get? i = some s := by
      have h0 := h 0 s rfl
      simpa using h0
    have hlook : ovrLookup (ovr.filter (validOverrideEntry rec)) (i : Int) s.type =
        ovrLookup ovr (i : Int) s.type := by
      apply ovrLookup_filter
      intro e _ he1 he2
      exact valid_of_key_match rec i s hs e he1 he2
    have hrest : genSteps (ovr.filter (validOverrideEntry rec)) asr rec.title (i + 1) rest =
        genSteps ovr asr rec.title (i + 1) rest := by
      apply ih
      intro j sj hj
      have hjj := h (j + 1) sj (by simpa using hj)
      rw [show i + 1 + j = i + (j + 1) by omega]
      exact hjj
    simp only [genSteps]
    rw [hlook, hrest]

/-- Claim C6 (amended): the Override Reviewer's semantic validation rejects
every override set containing an out-of-range or type-mismatched
`(step, action)` reference (this check guards both its proposed and its
merged override sets), while the Recording Generator performs no such
check: invalid entries can never be hit by its keyed lookup, so its output
is identical to the output with those entries removed — they are silently
ignored, not a validation error. -/
theorem override_validation_pipelines :
    (∀ (overrides : OverridesFile) (recording : Recording),
        (∃ e ∈ overrides.overrides, validOverrideEntry recording e = false) →
        validationOk (validateOverridesAgainstRecording overrides recording) = false) ∧
    (∀ (rec : Recording) (ovr : OverridesFile) (asr : Option AssertionsFile),
        genRecording rec (some ovr) asr =
          genRecording rec
            (some { overrides := ovr.overrides.filter (validOverrideEntry rec) }) asr) := by
  constructor
  · rintro ovr rec ⟨e, he, hbad⟩
    unfold validateOverridesAgainstRecording
    have hne : entryIssues rec e ≠ [] := by
      unfold validOverrideEntry at hbad
      simpa [List.isEmpty_eq_false] using hbad
    have hflat : ((ovr.overrides.map (entryIssues rec)).flatten).isEmpty = false := by
      rw [List.isEmpty_eq_false]
      intro hnil
      exact hne (List.flatten_eq_nil_iff.mp hnil _ (List.mem_map_of_mem _ he))
    simp [hflat, validationOk]
  · intro rec ovr asr
    simp only [genRecording, Option.map_some', Option.getD_some]
    rw [genSteps_filter rec ovr.overrides ((asr.map (·.assertions)).getD []) rec.steps 0
      (fun j s hj => by simpa using hj)]

/-- Counterexample to claim C6 as stated: an out-of-range override against a
one-step recording is rejected by the reviewer's validator, but the
Recording Generator's output is bit-identical to the output with no
overrides at all — the generator ignores the invalid reference silently
instead of raising a validation error. -/
theorem override_validation_pipelines_counterexample :
    genRecording demoRecording (some outOfRangeOverrides) none =
      genRecording demoRecording none none ∧
    validationOk (validateOverridesAgainstRecording outOfRangeOverrides demoRecording)
      = false :=
  ⟨by decide, by decide⟩

/-- Witness for claim C6 (amended): a type-mismatched override (step 0 is a
`navigate`, the override says `click`). -/
theorem override_validation_pipelines_witness :
    (∃ e ∈ mismatchOverrides.overrides, validOverrideEntry demoRecording e = false) ∧
    validationOk (validateOverridesAgainstRecording mismatchOverrides demoRecording)
      = false ∧
    genRecording demoRecording (some mismatchOverrides) none =
      genRecording demoRecording
        (some { overrides :=
          mismatchOverrides.overrides.filter (validOverrideEntry demoRecording) }) none := by
  refine ⟨⟨{ step := 0, action := "click"
           , locator := { kind := "css", selector := some ".btn" } }, by decide, by decide⟩,
    ?_, ?_⟩
  · exact override_validation_pipelines.1 mismatchOverrides demoRecording
      ⟨{ step := 0, action := "click"
       , locator := { kind := "css", selector := some ".btn" } }, by decide, by decide⟩
  · exact override_validation_pipelines.2 demoRecording mismatchOverrides none

/-- In an all-rejected batch, each rejected file contributes its report to
the loop's collected rejection list (no valid file exists, so no crash can
cut the loop short). -/
theorem processFiles_invalid_mem :
    ∀ (files : List (String × ParsedFile)) (path reason : String),
      (files.all fun f => isInvalidFile f.2) = true →
      (path, ParsedFile.invalid reason) ∈ files →
      ({ file := path, reason := reason } : InvalidRecordingReport) ∈
        (processFiles files).invalid := by
  intro files
  induction files with
  | nil => intro _ _ _ h; cases h
  | cons x rest ih =>
    intro path reason hall h
    obtain ⟨p, pf⟩ := x
    simp only [List.all_cons, Bool.and_eq_true] at hall
    cases pf with
    | invalid r =>
      rcases List.mem_cons.mp h with heq | hmem
      · cases heq
        simp [processFiles]
      · simp only [processFiles]
        exact List.mem_cons_of_mem _ (ih path reason hall.2 hmem)
    | valid rec o a => cases hall.1

/-- As long as no template crash occurred, every valid recording of the
batch gets its spec file written, whatever its siblings look like. -/
theorem processFiles_valid_mem :
    ∀ (files : List (String × ParsedFile)) (path : String) (rec : Recording)
      (o : Option OverridesFile) (a : Option AssertionsFile),
      (processFiles files).crashed = none →
      (path, ParsedFile.valid rec o a) ∈ files →
      outPathOf rec ∈ (processFiles files).written := by
  intro files
  induction files with
  | nil => intro _ _ _ _ _ h; cases h
  | cons x rest ih =>
    intro path rec o a hcr h
    obtain ⟨p, pf⟩ := x
    cases pf with
    | invalid r =>
      simp only [processFiles] at hcr ⊢
      rcases List.mem_cons.mp h with heq | hmem
      · cases heq
      · exact ih path rec o a hcr hmem
    | valid rec' o' a' =>
      simp only [processFiles] at hcr ⊢
      cases hg : genRecording rec' o' a' with
      | error e =>
        rw [hg] at hcr
        cases hcr
      | ok pair =>
        obtain ⟨lines, brittle⟩ := pair
        rw [hg] at hcr
        dsimp only at hcr ⊢
        rcases List.mem_cons.mp h with heq | hmem
        · cases heq
          exact List.mem_cons_self ..
        · exact List.mem_cons_of_mem _ (ih path rec o a hcr hmem)

/-- If every discovered file is invalid, nothing is written and no crash
occurs. -/
theorem processFiles_all_invalid :
    ∀ files : List (String × ParsedFile),
      (files.all fun f => isInvalidFile f.2) = true →
      (processFiles files).written = [] ∧ (processFiles files).crashed = none := by
  intro files
  induction files with
  | nil => intro _; exact ⟨rfl, rfl⟩
  | cons x rest ih =>
    intro h
    obtain ⟨p, pf⟩ := x
    simp only [List.all_cons, Bool.and_eq_true] at h
    cases pf with
    | invalid r =>
      simp only [processFiles]
      exact ih h.2
    | valid rec o a => cases h.1

/-- Removing the invalid files from a batch changes nothing about the
processing of the valid ones: the written files, the brittle reports and
the crash behaviour are identical. -/
theorem processFiles_filter_invalid :
    ∀ files : List (String × ParsedFile),
      (processFiles (files.filter fun f => !isInvalidFile f.2)).written =
        (processFiles files).written ∧
      (processFiles (files.filter fun f => !isInvalidFile f.2)).brittle =
        (processFiles files).brittle ∧
      (processFiles (files.filter fun f => !isInvalidFile f.2)).crashed =
        (processFiles files).crashed := by
  intro files
  induction files with
  | nil => exact ⟨rfl, rfl, rfl⟩
  | cons x rest ih =>
    obtain ⟨p, pf⟩ := x
    cases pf with
    | invalid r =>
      rw [List.filter_cons_of_neg (by simp [isInvalidFile])]
      simp only [processFiles]
      exact ih
    | valid rec o a =>
      rw [List.filter_cons_of_pos (by simp [isInvalidFile])]
      simp only [processFiles]
      cases hg : genRecording rec o a with
      | error e => exact ⟨rfl, rfl, rfl⟩
      | ok pair =>
        obtain ⟨lines, brittle⟩ := pair
        simp only
        exact ⟨by rw [ih.1], by rw [ih.2.1], ih.2.2⟩

/-- Once the discovery is nonempty, every exit of the batch — normal,
all-rejected, strict gate or uncaught crash — reports exactly the files the
processing loop managed to write (writing happens before any late
failure). -/
theorem generateBatch_written (strict : Bool) (files : List (String × ParsedFile))
    (hne : files ≠ []) :
    (generateBatch strict files).filesWritten = (processFiles files).written := by
  simp only [generateBatch]
  rw [if_neg (by simpa [List.isEmpty_eq_false] using hne)]
  split
  · rfl
  · split
    · rfl
    · split
      · rfl
      · rfl

/-- The generator crashes the whole batch on a schema-valid recording whose
`navigate` template reads a missing `url`: files after it are not written
and the run exits non-zero with the uncaught TypeError. -/
theorem generateBatch_crash_aborts :
    stepCodeOf { type := "navigate" } none = .error undefinedReplaceError ∧
    generateBatch false crashBatch =
      { filesWritten := [], brittleSelectors := []
      , error := some undefinedReplaceError } :=
  ⟨by decide, by decide⟩

/-- Claim C8: the generator's batch outcome splits three ways — an empty
discovery returns normally with nothing written; a nonempty discovery in
which every file is rejected fails with a message listing every rejected
file and its reason; and invalid siblings never abort (or otherwise affect)
the processing of the valid files: the written files, brittle reports and
crash behaviour are identical with the invalid files removed, and when no
step template crashes, every valid recording is written and a non-strict
batch with at least one valid file succeeds. -/
theorem generate_batch_outcomes :
    ∀ (strict : Bool) (files : List (String × ParsedFile)),
      (files = [] →
        generateBatch strict files =
          { filesWritten := [], brittleSelectors := [], error := none }) ∧
      (files ≠ [] → (files.all fun f => isInvalidFile f.2) = true →
        (generateBatch strict files).error =
          some (allRejectedMessage (processFiles files).invalid) ∧
        (∀ path reason, (path, ParsedFile.invalid reason) ∈ files →
          ("- " ++ path ++ ": " ++ reason) ∈
            rejectionLines (processFiles files).invalid)) ∧
      ((generateBatch strict files).filesWritten =
          (generateBatch strict (files.filter fun f => !isInvalidFile f.2)).filesWritten ∧
        (processFiles (files.filter fun f => !isInvalidFile f.2)).crashed =
          (processFiles files).crashed) ∧
      ((processFiles files).crashed = none →
        (∀ path rec o a, (path, ParsedFile.valid rec o a) ∈ files →
          outPathOf rec ∈ (generateBatch strict files).filesWritten) ∧
        ((files.all fun f => isInvalidFile f.2) = false → strict = false →
          (generateBatch strict files).error = none)) := by
  intro strict files
  refine ⟨?_, ?_, ?_, ?_⟩
  · intro h
    subst h
    rfl
  · intro hne hall
    obtain ⟨hw, hcr⟩ := processFiles_all_invalid files hall
    have hinv : (processFiles files).invalid ≠ [] := by
      cases files with
      | nil => exact absurd rfl hne
      | cons x rest =>
        obtain ⟨p, pf⟩ := x
        simp only [List.all_cons, Bool.and_eq_true] at hall
        cases pf with
        | invalid r => simp [processFiles]
        | valid rec o a => cases hall.1
    constructor
    · unfold generateBatch
      rw [if_neg (by simpa [List.isEmpty_eq_false] using hne)]
      rcases hpf : processFiles files with ⟨w, b, inv, cr⟩
      rw [hpf] at hw hcr hinv
      dsimp only at hw hcr hinv ⊢
      subst hw
      subst hcr
      rw [if_pos (by simp [List.isEmpty_eq_false.mpr hinv])]
    · intro path reason hmem
      have hrep := processFiles_invalid_mem files path reason hall hmem
      unfold rejectionLines
      refine List.mem_append.mpr (Or.inl ?_)
      refine List.mem_append.mpr (Or.inr ?_)
      exact List.mem_map_of_mem
        (fun r : InvalidRecordingReport => "- " ++ r.file ++ ": " ++ r.reason) hrep
  · constructor
    · by_cases hf : files = []
      · subst hf
        rfl
      · by_cases hfe : (files.filter fun f => !isInvalidFile f.2) = []
        · have hall : (files.all fun f => isInvalidFile f.2) = true := by
            rw [List.all_eq_true]
            intro f hfmem
            have hnot := List.filter_eq_nil_iff.mp hfe f hfmem
            simpa using hnot
          rw [generateBatch_written strict files hf,
            (processFiles_all_invalid files hall).1, hfe]
          rfl
        · rw [generateBatch_written strict files hf, generateBatch_written strict _ hfe]
          exact (processFiles_filter_invalid files).1.symm
    · exact (processFiles_filter_invalid files).2.2
  · intro hcr
    constructor
    · intro path rec o a hmem
      have hne : files ≠ [] := by
        intro h
        subst h
        cases hmem
      rw [generateBatch_written strict files hne]
      exact processFiles_valid_mem files path rec o a hcr hmem
    · intro hall hstrict
      obtain ⟨x, hx, hxv⟩ := List.all_eq_false.mp hall
      obtain ⟨p, pf⟩ := x
      cases pf with
      | invalid r => simp [isInvalidFile] at hxv
      | valid rec o a =>
        have hne : files ≠ [] := by
          intro h
          subst h
          cases hx
        have hwmem : outPathOf rec ∈ (processFiles files).written :=
          processFiles_valid_mem files p rec o a hcr hx
        have hw : (processFiles files).written.isEmpty = false := by
          rw [List.isEmpty_eq_false]
          intro h
          rw [h] at hwmem
          cases hwmem
        subst hstrict
        unfold generateBatch
        rw [if_neg (by simpa [List.isEmpty_eq_false] using hne)]
        rcases hpf : processFiles files with ⟨w, b, inv, cr⟩
        rw [hpf] at hcr hw
        dsimp only at hcr hw ⊢
        subst hcr
        rw [if_neg (by simp [hw])]
        rw [if_neg (by simp)]

/-- Witness for claim C8: the three batch shapes at concrete inputs (no
template crash occurs in the mixed batch, and its valid recording is
written with error = none despite the invalid sibling). -/
theorem generate_batch_outcomes_witness :
    generateBatch false [] = { filesWritten := [], brittleSelectors := [], error := none } ∧
    (generateBatch true allInvalidBatch).error =
      some (allRejectedMessage (processFiles allInvalidBatch).invalid) ∧
    ("- " ++ "recordings/a.json" ++ ": " ++ "invalid JSON (Unexpected token)") ∈
      rejectionLines (processFiles allInvalidBatch).invalid ∧
    (generateBatch false mixedBatch).filesWritten =
      (generateBatch false (mixedBatch.filter fun f => !isInvalidFile f.2)).filesWritten ∧
    (processFiles mixedBatch).crashed = none ∧
    outPathOf loginRecording ∈ (generateBatch false mixedBatch).filesWritten ∧
    (generateBatch false mixedBatch).error = none := by
  refine ⟨(generate_batch_outcomes false []).1 rfl, ?_, ?_, ?_, by decide, ?_, ?_⟩
  · exact ((generate_batch_outcomes true allInvalidBatch).2.1 (by decide) (by decide)).1
  · exact ((generate_batch_outcomes true allInvalidBatch).2.1 (by decide) (by decide)).2
      "recordings/a.json" "invalid JSON (Unexpected token)" (by decide)
  · exact (generate_batch_outcomes false mixedBatch).2.2.1.1
  · exact ((generate_batch_outcomes false mixedBatch).2.2.2 (by decide)).1
      "recordings/login.json" loginRecording none none (by decide)
  · exact ((generate_batch_outcomes false mixedBatch).2.2.2 (by decide)).2 (by decide) rfl

/-- Witness for claim C4 (amended) at concrete inputs. -/
theorem selector_brittleness_invariant_witness :
    ariaRoleNameSel "aria/Save[role=\"button\"]" = true ∧
    (parseSelector "aria/Save[role=\"button\"]").brittle = false ∧
    plainCssPath "li:nth-child(2)" = true ∧
    hasNth (cssTargetOf "li:nth-child(2)") = true ∧
    (parseSelector "li:nth-child(2)").brittle = true :=
  ⟨by decide,
   selector_brittleness_invariant.1 _ (by decide),
   by decide, by decide,
   selector_brittleness_invariant.2 _ (by decide) (by decide)⟩

end QACR
